import Mathlib

/-!
Shallow embedding of the phixgo per-frame physics core (package main of the
repository, main physics file): the spatial hash, the pairwise collision
resolver, the integrator, and the water/gas force models. Floating-point
values are modelled as exact rationals; every call of `math.Sqrt` is routed
through an explicit function `rsqrt : ℚ → ℚ`, and theorems that depend on the
value of a square root carry a local hypothesis stating that `rsqrt` is an
exact square root at the relevant argument.
-/

set_option linter.unusedVariables false
set_option maxRecDepth 65536

namespace Phixgo

/-- Shape tags of the source; they only affect rendering and spawning. -/
inductive ShapeType where
  | ShapeCircle
  | ShapeSquare
  | ShapeTriangle
  | ShapeWater
  | ShapeGas
  | ShapeStatic
deriving DecidableEq, Inhabited

/-- Material tags of the source: the physics-relevant classification. -/
inductive MaterialType where
  | MaterialSolid
  | MaterialWater
  | MaterialGas
  | MaterialStatic
deriving DecidableEq, Inhabited

open ShapeType MaterialType

/-- Positions, as in the source type Pos. -/
structure Pos where
  x : ℚ
  y : ℚ
deriving DecidableEq, Inhabited

/-- Velocities, as in the source type Velocity. -/
structure Velocity where
  vx : ℚ
  vy : ℚ
deriving DecidableEq, Inhabited

/-- Particles, as in the source type Ball. -/
structure Ball where
  pos : Pos
  velocity : Velocity
  radius : ℚ
  shape : ShapeType
  material : MaterialType
deriving DecidableEq, Inhabited

/-- Tunable settings record of the source (type Settings). -/
structure Settings where
  gravity : ℚ
  maxSpeed : ℚ
  moveAwayDistance : ℚ
  moveAwayStrength : ℚ
  moveAttractStrength : ℚ
  groundRestitution : ℚ
  collisionRestitution : ℚ
  airDrag : ℚ
  groundFriction : ℚ
  hasTopBarrier : Bool
deriving DecidableEq, Inhabited

/-- Source defaultSettings. -/
def defaultSettings : Settings :=
  { gravity := 0.2
    maxSpeed := 10.0
    moveAwayDistance := 100.0
    moveAwayStrength := 5.0
    moveAttractStrength := 10.0
    groundRestitution := 0.65
    collisionRestitution := 0.85
    airDrag := 0.02
    groundFriction := 0.8
    hasTopBarrier := false }

/-! Constants of the source file (const block). -/

def screenPadding : ℚ := 50.0
def minimumSeparation : ℚ := 0.0001
def maxSpawnRadius : ℚ := 120.0
def maxCollisionSolves : Nat := 4
def penetrationSlop : ℚ := 0.001
def waterRestDistance : ℚ := 12.0
def waterInteraction : ℚ := waterRestDistance * 1.8
def waterViscosity : ℚ := 0.55
def waterRestDensity : ℚ := 4.5
def waterPressureStiff : ℚ := 0.32
def waterNearStiff : ℚ := 1.1
def waterBoundaryPush : ℚ := 0.22
def waterBoundaryDrag : ℚ := 0.05
def gasRestDistance : ℚ := 16.0
def gasInteraction : ℚ := gasRestDistance * 1.5
def gasPressure : ℚ := 0.12
def gasViscosity : ℚ := 0.08
def gasBuoyancy : ℚ := 0.25
def gasDrag : ℚ := 0.05
def gasBoundaryPush : ℚ := 0.12
def gasBoundaryDrag : ℚ := 0.04

/-- Cell size of the generic collision grid (NewGame: maxSpawnRadius * 2). -/
def colliderCellSize : ℚ := maxSpawnRadius * 2

/-- Cell size of the water grid (NewGame: waterRestDistance * 2). -/
def waterCellSize : ℚ := waterRestDistance * 2

/-- Cell size of the solid grid (NewGame: maxSpawnRadius * 2). -/
def solidCellSize : ℚ := maxSpawnRadius * 2

/-- Cell size of the gas grid (NewGame: gasRestDistance * 2). -/
def gasCellSize : ℚ := gasRestDistance * 2

/-- Source hashKey: packs two cell coordinates into one 64-bit key via
`(int64(uint32(ix)) << 32) | int64(uint32(iy))`.  `uint32(·)` is reduction
mod 2^32, the shift-or packs two disjoint 32-bit fields (the or coincides
with addition there), and the result is reinterpreted as a signed 64-bit
value (two's complement). -/
def hashKey (ix iy : Int) : Int :=
  let ux : Nat := (ix % (2 ^ 32 : Int)).toNat
  let uy : Nat := (iy % (2 ^ 32 : Int)).toNat
  let packed : Nat := (ux <<< 32) ||| uy
  if packed < 2 ^ 63 then (packed : Int) else (packed : Int) - 2 ^ 64

/-- Source spatialHash.coord: `int(math.Floor(value * invCellSize))`. -/
def coordOf (cellSize : ℚ) (v : ℚ) : Int :=
  ⌊v * (1 / cellSize)⌋

/-- Cell coordinates of a position in a grid of the given cell size. -/
def cellCoordAt (cellSize : ℚ) (p : Pos) : Int × Int :=
  (coordOf cellSize p.x, coordOf cellSize p.y)

/-- Builds the buckets of a spatial hash by inserting the listed indices in
order, exactly as the per-frame rebuild loops do (spatialHash.insert appends
to the bucket of the index's cell key). -/
def gridInsert (cellSize : ℚ) (l : List Ball) (bk : Int → List Nat) (j : Nat) :
    Int → List Nat :=
  let c := cellCoordAt cellSize (l.getD j default).pos
  let key := hashKey c.1 c.2
  fun k => if k = key then bk k ++ [j] else bk k

/-- Buckets of a rebuilt spatial hash: the listed indices inserted in
order. -/
def gridBuild (cellSize : ℚ) (l : List Ball) (idxs : List Nat) : Int → List Nat :=
  idxs.foldl (gridInsert cellSize l) (fun _ => [])

/-- Source neighborOffsets: the 3x3 scan pattern, in source order. -/
def neighborOffsets : List (Int × Int) :=
  [(0, 0), (1, 0), (-1, 0), (0, 1), (0, -1), (1, 1), (1, -1), (-1, 1), (-1, -1)]

/-- Source mobilityFor: 0 for static material, 1 otherwise. -/
def mobilityFor (material : MaterialType) : ℚ :=
  if material = MaterialStatic then 0 else 1

/-- Source speedSquared of a velocity. -/
def speedSqV (v : Velocity) : ℚ :=
  v.vx * v.vx + v.vy * v.vy

/-- Source Ball.speedSquared. -/
def speedSqB (b : Ball) : ℚ :=
  speedSqV b.velocity

/-- Squared distance of two ball centers. -/
def distSqBetween (b1 b2 : Ball) : ℚ :=
  let dx := b2.pos.x - b1.pos.x
  let dy := b2.pos.y - b1.pos.y
  dx * dx + dy * dy

/-- Squared-distance clamping step of resolveCollisionCustom: if `distSq` is
below `minimumSeparation^2` it is raised to `minimumSeparation^2` before the
square root is taken. -/
def clampedDistSq (b1 b2 : Ball) : ℚ :=
  let distSq := distSqBetween b1 b2
  if distSq < minimumSeparation * minimumSeparation then
    minimumSeparation * minimumSeparation
  else distSq

/-- Separating normal computed by resolveCollisionCustom: the displacement
divided by the (clamped) distance, with the `nx = 1` fallback when both
components come out zero. -/
def collisionNormal (rsqrt : ℚ → ℚ) (b1 b2 : Ball) : ℚ × ℚ :=
  let distance := rsqrt (clampedDistSq b1 b2)
  let nx := (b2.pos.x - b1.pos.x) / distance
  let ny := (b2.pos.y - b1.pos.y) / distance
  if nx = 0 ∧ ny = 0 then (1, ny) else (nx, ny)

/-- Source resolveCollisionCustom: positional correction, restitution
impulse and tangential friction for one candidate pair.  Returns the two
updated balls and the Bool the source returns. -/
def resolveCollisionCustom (rsqrt : ℚ → ℚ) (b1 b2 : Ball)
    (collisionRestitution friction : ℚ) : Ball × Ball × Bool :=
  let combinedRadius := b1.radius + b2.radius
  let combinedRadiusSq := combinedRadius * combinedRadius
  let distSq := distSqBetween b1 b2
  if distSq ≥ combinedRadiusSq then (b1, b2, false)
  else
    let distance := rsqrt (clampedDistSq b1 b2)
    let n := collisionNormal rsqrt b1 b2
    let nx := n.1
    let ny := n.2
    let overlap := combinedRadius - distance
    if overlap ≤ 0 then (b1, b2, false)
    else
      let mob1 := mobilityFor b1.material
      let mob2 := mobilityFor b2.material
      let separation := overlap + penetrationSlop
      let weightSum := mob1 + mob2
      if weightSum = 0 then (b1, b2, true)
      else
        let shift1 := separation * (mob1 / weightSum)
        let shift2 := separation * (mob2 / weightSum)
        let c1 :=
          if mob1 > 0 then
            { b1 with pos := ⟨b1.pos.x - nx * shift1, b1.pos.y - ny * shift1⟩ }
          else b1
        let c2 :=
          if mob2 > 0 then
            { b2 with pos := ⟨b2.pos.x + nx * shift2, b2.pos.y + ny * shift2⟩ }
          else b2
        let rvx := c2.velocity.vx - c1.velocity.vx
        let rvy := c2.velocity.vy - c1.velocity.vy
        let velAlongNormal := rvx * nx + rvy * ny
        if velAlongNormal > 0 then (c1, c2, true)
        else
          let massSum := mob1 + mob2
          if massSum = 0 then (c1, c2, true)
          else
            let impulseScalar := -(1 + collisionRestitution) * velAlongNormal / massSum
            let impulseX := impulseScalar * nx
            let impulseY := impulseScalar * ny
            let d1 :=
              if mob1 > 0 then
                { c1 with velocity := ⟨c1.velocity.vx - impulseX * mob1,
                                       c1.velocity.vy - impulseY * mob1⟩ }
              else c1
            let d2 :=
              if mob2 > 0 then
                { c2 with velocity := ⟨c2.velocity.vx + impulseX * mob2,
                                       c2.velocity.vy + impulseY * mob2⟩ }
              else c2
            let tx := -ny
            let ty := nx
            let relTangential := rvx * tx + rvy * ty
            if friction ≠ 0 then
              let frictionScalar := relTangential * friction / massSum
              let fx := tx * frictionScalar
              let fy := ty * frictionScalar
              let e1 :=
                if mob1 > 0 then
                  { d1 with velocity := ⟨d1.velocity.vx + fx * mob1,
                                         d1.velocity.vy + fy * mob1⟩ }
                else d1
              let e2 :=
                if mob2 > 0 then
                  { d2 with velocity := ⟨d2.velocity.vx - fx * mob2,
                                         d2.velocity.vy - fy * mob2⟩ }
                else d2
              (e1, e2, true)
            else (d1, d2, true)

/-- Source resolveCollision: the custom resolver with friction 0.5. -/
def resolveCollision (rsqrt : ℚ → ℚ) (b1 b2 : Ball) (collisionRestitution : ℚ) :
    Ball × Ball × Bool :=
  resolveCollisionCustom rsqrt b1 b2 collisionRestitution 0.5

/-- Material dispatch of the collision sweep in Game.Update: which pairs are
skipped, and which restitution/friction pair the others use.  The final case
is resolveCollision, i.e. the custom resolver with friction 0.5. -/
def collideParams (restitution : ℚ) (ma mb : MaterialType) : Option (ℚ × ℚ) :=
  if ma = MaterialWater ∧ mb = MaterialWater then none
  else if ma = MaterialGas ∧ mb = MaterialGas then none
  else if (ma = MaterialWater ∧ mb = MaterialGas) ∨ (ma = MaterialGas ∧ mb = MaterialWater) then
    some (restitution * 0.2, 0.04)
  else if ma = MaterialWater ∨ mb = MaterialWater then
    some (restitution * 0.25, 0.05)
  else if ma = MaterialGas ∨ mb = MaterialGas then
    some (restitution * 0.3, 0.02)
  else
    some (restitution, 0.5)

/-- Candidate pairs of one collision sweep: the grid and the cell cache are
rebuilt from the state at the start of the sweep; each index scans its 3x3
neighborhood and keeps neighbors with a larger index. -/
def candidatePairs (l : List Ball) : List (Nat × Nat) :=
  let bk := gridBuild colliderCellSize l (List.range l.length)
  (List.range l.length).flatMap fun i =>
    let c := cellCoordAt colliderCellSize (l.getD i default).pos
    neighborOffsets.flatMap fun o =>
      ((bk (hashKey (c.1 + o.1) (c.2 + o.2))).filter (fun j => i < j)).map fun j => (i, j)

/-- One candidate pair handled inside the sweep: dispatch on the two
materials, possibly resolve, write back both balls and or-in the Bool. -/
def sweepStep (rsqrt : ℚ → ℚ) (restitution : ℚ) (acc : List Ball × Bool)
    (p : Nat × Nat) : List Ball × Bool :=
  match collideParams restitution (acc.1.getD p.1 default).material
      (acc.1.getD p.2 default).material with
  | none => acc
  | some rf =>
      (((acc.1.set p.1 (resolveCollisionCustom rsqrt (acc.1.getD p.1 default)
            (acc.1.getD p.2 default) rf.1 rf.2).1).set p.2
          (resolveCollisionCustom rsqrt (acc.1.getD p.1 default)
            (acc.1.getD p.2 default) rf.1 rf.2).2.1),
       acc.2 || (resolveCollisionCustom rsqrt (acc.1.getD p.1 default)
            (acc.1.getD p.2 default) rf.1 rf.2).2.2)

/-- One grid-rebuild-and-resolution sweep of the collision solver. -/
def collisionSweep (rsqrt : ℚ → ℚ) (restitution : ℚ) (l : List Ball) :
    List Ball × Bool :=
  (candidatePairs l).foldl (sweepStep rsqrt restitution) (l, false)

/-- Outer loop of the collision solver: up to `fuel` sweeps, stopping early
after a sweep that resolved nothing.  Also returns the number of sweeps that
were executed. -/
def solveLoop (rsqrt : ℚ → ℚ) (restitution : ℚ) : Nat → List Ball → List Ball × Nat
  | 0, l => (l, 0)
  | Nat.succ n, l =>
      let r := collisionSweep rsqrt restitution l
      if r.2 then
        let s := solveLoop rsqrt restitution n r.1
        (s.1, s.2 + 1)
      else (r.1, 1)

/-- Collision block of Game.Update: runs only with more than one ball, with
the iteration cap maxCollisionSolves. -/
def collisionPass (rsqrt : ℚ → ℚ) (restitution : ℚ) (l : List Ball) : List Ball :=
  if 1 < l.length then (solveLoop rsqrt restitution maxCollisionSolves l).1 else l

/-- Gravity and air-drag update of the integrator, the velocity the clamp
then sees: `vy += gravity`, then both components scaled by `1 - airDrag`. -/
def dragGravityVel (s : Settings) (b : Ball) : Velocity :=
  ⟨b.velocity.vx * (1 - s.airDrag), (b.velocity.vy + s.gravity) * (1 - s.airDrag)⟩

/-- Velocity clamp of the integrator: if the squared speed exceeds
`maxSpeed^2`, rescale by `maxSpeed / sqrt(speedSq)`. -/
def clampVelocity (rsqrt : ℚ → ℚ) (maxSpeed : ℚ) (v : Velocity) : Velocity :=
  let speedSq := speedSqV v
  if speedSq > maxSpeed * maxSpeed then
    let speed := rsqrt speedSq
    let scale := maxSpeed / speed
    ⟨v.vx * scale, v.vy * scale⟩
  else v

/-- Optional top-barrier reflection of the integrator. -/
def reflectTop (s : Settings) (b : Ball) : Ball :=
  if s.hasTopBarrier ∧ b.pos.y - b.radius < screenPadding then
    { b with pos := ⟨b.pos.x, screenPadding + b.radius⟩,
             velocity := ⟨b.velocity.vx, b.velocity.vy * (-s.groundRestitution)⟩ }
  else b

/-- Bottom-floor reflection of the integrator (also applies ground friction
to the horizontal velocity). -/
def reflectBottom (s : Settings) (H : ℚ) (b : Ball) : Ball :=
  let bottomLimit := H - screenPadding
  if b.pos.y + b.radius > bottomLimit then
    { b with pos := ⟨b.pos.x, bottomLimit - b.radius⟩,
             velocity := ⟨b.velocity.vx * s.groundFriction,
                          b.velocity.vy * (-s.groundRestitution)⟩ }
  else b

/-- Left-wall reflection of the integrator. -/
def reflectLeft (s : Settings) (b : Ball) : Ball :=
  if b.pos.x - b.radius < 0 then
    { b with pos := ⟨b.radius, b.pos.y⟩,
             velocity := ⟨b.velocity.vx * (-s.groundRestitution), b.velocity.vy⟩ }
  else b

/-- Right-wall reflection of the integrator. -/
def reflectRight (s : Settings) (W : ℚ) (b : Ball) : Ball :=
  let ballRightLimit := W - b.radius
  if b.pos.x > ballRightLimit then
    { b with pos := ⟨ballRightLimit, b.pos.y⟩,
             velocity := ⟨b.velocity.vx * (-s.groundRestitution), b.velocity.vy⟩ }
  else b

/-- Per-ball integrator body of Game.Update: skip statics; gravity, air
drag, speed clamp, explicit-Euler position advance, then the four boundary
reflections in source order. -/
def integratorStep (rsqrt : ℚ → ℚ) (s : Settings) (W H : ℚ) (b : Ball) : Ball :=
  if b.material = MaterialStatic then b
  else
    let v1 := dragGravityVel s b
    let v2 := clampVelocity rsqrt s.maxSpeed v1
    let b3 : Ball := { b with pos := ⟨b.pos.x + v2.vx, b.pos.y + v2.vy⟩, velocity := v2 }
    reflectRight s W (reflectLeft s (reflectBottom s H (reflectTop s b3)))

/-- Integrator block of Game.Update, over the whole particle list. -/
def integratorPass (rsqrt : ℚ → ℚ) (s : Settings) (W H : ℚ) (l : List Ball) : List Ball :=
  l.map (integratorStep rsqrt s W H)

/-- Indices of water particles, in array order (g.waterIndices). -/
def waterIndicesOf (l : List Ball) : List Nat :=
  (List.range l.length).filter fun i => decide ((l.getD i default).material = MaterialWater)

/-- Indices of solid and static particles, in array order (g.solidIndices). -/
def solidIndicesOf (l : List Ball) : List Nat :=
  (List.range l.length).filter fun i =>
    decide ((l.getD i default).material = MaterialSolid ∨
            (l.getD i default).material = MaterialStatic)

/-- Indices of gas particles, in array order (g.gasIndices). -/
def gasIndicesOf (l : List Ball) : List Nat :=
  (List.range l.length).filter fun i => decide ((l.getD i default).material = MaterialGas)

/-- Per-neighbor body of pass 1 of applyWaterForces: skip self, skip
non-water, skip out-of-range or degenerate distances, otherwise accumulate
the kernel contributions q^2 and q^3. -/
def waterDensityStep (rsqrt : ℚ → ℚ) (l : List Ball) (i : Nat) (acc : ℚ × ℚ)
    (nj : Nat) : ℚ × ℚ :=
  if nj = i then acc
  else if (l.getD nj default).material ≠ MaterialWater then acc
  else
    let dx := (l.getD nj default).pos.x - (l.getD i default).pos.x
    let dy := (l.getD nj default).pos.y - (l.getD i default).pos.y
    let distSq := dx * dx + dy * dy
    if distSq ≥ waterInteraction * waterInteraction ∨
       distSq < minimumSeparation * minimumSeparation then acc
    else
      let dist := rsqrt distSq
      if dist ≤ 0 then acc
      else
        let q := 1 - dist / waterInteraction
        (acc.1 + q * q, acc.2 + q * q * q)

/-- Pass 1 of applyWaterForces for the water particle at array index `i`:
the density / near-density pair as stored in g.waterDensity and
g.waterNearDensity (the stored density includes the self baseline `+ 1`). -/
def waterPass1At (rsqrt : ℚ → ℚ) (l : List Ball) (i : Nat) : ℚ × ℚ :=
  let ws := waterIndicesOf l
  let bk := gridBuild waterCellSize l ws
  let c := cellCoordAt waterCellSize (l.getD i default).pos
  let acc :=
    neighborOffsets.foldl
      (fun acc o =>
        (bk (hashKey (c.1 + o.1) (c.2 + o.2))).foldl
          (waterDensityStep rsqrt l i) acc)
      ((0 : ℚ), (0 : ℚ))
  (acc.1 + 1, acc.2)

/-- Kernel contribution of one neighboring ball to the pass-1 accumulators,
written as a function of the two ball records. -/
def waterKernelAcc (rsqrt : ℚ → ℚ) (pi pj : Ball) : ℚ × ℚ :=
  if pj.material ≠ MaterialWater then (0, 0)
  else
    let dx := pj.pos.x - pi.pos.x
    let dy := pj.pos.y - pi.pos.y
    let distSq := dx * dx + dy * dy
    if distSq ≥ waterInteraction * waterInteraction ∨
       distSq < minimumSeparation * minimumSeparation then (0, 0)
    else
      let dist := rsqrt distSq
      if dist ≤ 0 then (0, 0)
      else
        let q := 1 - dist / waterInteraction
        (q * q, q * q * q)

/-- Contribution of the index `nj` to the pass-1 accumulators of index `i`:
zero for the particle itself, the kernel value otherwise. -/
def waterDensityContrib (rsqrt : ℚ → ℚ) (l : List Ball) (i nj : Nat) : ℚ × ℚ :=
  if nj = i then (0, 0)
  else waterKernelAcc rsqrt (l.getD i default) (l.getD nj default)

/-- Index transposition used to express the swap of two array entries. -/
def swapIdx (a b j : Nat) : Nat :=
  if j = a then b else if j = b then a else j

/-- One neighbor handled in pass 2 of applyWaterForces: symmetric pressure
impulse followed by the viscosity impulse. -/
def waterPairStep (rsqrt : ℚ → ℚ) (ws : List Nat) (dens : List (ℚ × ℚ)) (bi : Nat)
    (pressure nearPressure : ℚ) (st : List Ball) (nj : Nat) : List Ball :=
  if nj ≤ bi then st
  else
    match ws.findIdx? (fun j => j == nj) with
    | none => st
    | some nwi =>
      let pB := st.getD bi default
      let pN := st.getD nj default
      let dx := pN.pos.x - pB.pos.x
      let dy := pN.pos.y - pB.pos.y
      let distSq := dx * dx + dy * dy
      if distSq ≥ waterInteraction * waterInteraction ∨
         distSq < minimumSeparation * minimumSeparation then st
      else
        let dist := rsqrt distSq
        if dist ≤ 0 then st
        else
          let q := 1 - dist / waterInteraction
          let nx := dx / dist
          let ny := dy / dist
          let nd := dens.getD nwi (0, 0)
          let neighborPressure := waterPressureStiff * (nd.1 - waterRestDensity)
          let neighborNearPressure := waterNearStiff * nd.2
          let pressureMag := (pressure + neighborPressure) * 0.5
          let nearMag := (nearPressure + neighborNearPressure) * 0.5
          let force := q * pressureMag + q * q * nearMag
          let st1 :=
            if force ≠ 0 then
              let impulseX := nx * force
              let impulseY := ny * force
              let a := st.getD bi default
              let b := st.getD nj default
              (st.set bi { a with velocity := ⟨a.velocity.vx - impulseX,
                                               a.velocity.vy - impulseY⟩ }).set nj
                { b with velocity := ⟨b.velocity.vx + impulseX,
                                      b.velocity.vy + impulseY⟩ }
            else st
          let a1 := st1.getD bi default
          let b1 := st1.getD nj default
          let relVelX := b1.velocity.vx - a1.velocity.vx
          let relVelY := b1.velocity.vy - a1.velocity.vy
          let relAlongNormal := relVelX * nx + relVelY * ny
          let viscImpulse := relAlongNormal * waterViscosity * q * 0.5
          let viscX := nx * viscImpulse
          let viscY := ny * viscImpulse
          (st1.set bi { a1 with velocity := ⟨a1.velocity.vx + viscX,
                                             a1.velocity.vy + viscY⟩ }).set nj
            { b1 with velocity := ⟨b1.velocity.vx - viscX,
                                   b1.velocity.vy - viscY⟩ }

/-- Pass 2 of applyWaterForces: pairwise pressure and viscosity impulses,
iterating the water particles in order with their cached cells. -/
def waterForcePass (rsqrt : ℚ → ℚ) (ws : List Nat) (dens : List (ℚ × ℚ))
    (bk : Int → List Nat) (cells : List (Int × Int)) (l : List Ball) : List Ball :=
  ws.enum.foldl
    (fun st p =>
      let idx := p.1
      let bi := p.2
      let c := cells.getD idx (0, 0)
      let d := dens.getD idx (0, 0)
      let pressure := waterPressureStiff * (d.1 - waterRestDensity)
      let nearPressure := waterNearStiff * d.2
      neighborOffsets.foldl
        (fun st o =>
          (bk (hashKey (c.1 + o.1) (c.2 + o.2))).foldl
            (fun st nj => waterPairStep rsqrt ws dens bi pressure nearPressure st nj) st)
        st)
    l

/-- One solid neighbor handled in the water boundary pass: push along the
normal plus tangential drag, with quarter-strength reaction on non-static
solids. -/
def waterBoundaryStep (rsqrt : ℚ → ℚ) (wi : Nat) (baseRange : ℚ) (st : List Ball)
    (si : Nat) : List Ball :=
  let wb := st.getD wi default
  let sb := st.getD si default
  let dx := wb.pos.x - sb.pos.x
  let dy := wb.pos.y - sb.pos.y
  let allowed := sb.radius + baseRange
  let distSq := dx * dx + dy * dy
  if distSq ≥ allowed * allowed ∨ distSq < minimumSeparation * minimumSeparation then st
  else
    let dist := rsqrt distSq
    if dist ≤ 0 then st
    else
      let nx := dx / dist
      let ny := dy / dist
      let penetration := allowed - dist
      let push := penetration * waterBoundaryPush
      let st1 := st.set wi { wb with velocity := ⟨wb.velocity.vx + nx * push,
                                                  wb.velocity.vy + ny * push⟩ }
      let sb1 := st1.getD si default
      let st2 :=
        if sb1.material ≠ MaterialStatic then
          st1.set si { sb1 with velocity := ⟨sb1.velocity.vx - nx * push * 0.25,
                                             sb1.velocity.vy - ny * push * 0.25⟩ }
        else st1
      let tx := -ny
      let ty := nx
      let wb2 := st2.getD wi default
      let sb2 := st2.getD si default
      let relVelX := wb2.velocity.vx - sb2.velocity.vx
      let relVelY := wb2.velocity.vy - sb2.velocity.vy
      let relTangential := relVelX * tx + relVelY * ty
      let drag := relTangential * waterBoundaryDrag
      let st3 := st2.set wi { wb2 with velocity := ⟨wb2.velocity.vx - tx * drag,
                                                    wb2.velocity.vy - ty * drag⟩ }
      let sb3 := st3.getD si default
      if sb3.material ≠ MaterialStatic then
        st3.set si { sb3 with velocity := ⟨sb3.velocity.vx + tx * drag * 0.25,
                                           sb3.velocity.vy + ty * drag * 0.25⟩ }
      else st3

/-- Source applyWaterForces: density pass, pairwise force pass, then the
boundary pass against the solid grid (which, as in the source, is queried
with water-grid cell coordinates). -/
def applyWaterForces (rsqrt : ℚ → ℚ) (l : List Ball) : List Ball :=
  if l.length = 0 then l
  else
    let ws := waterIndicesOf l
    if ws.length = 0 then l
    else
      let ss := solidIndicesOf l
      let wbk := gridBuild waterCellSize l ws
      let sbk := gridBuild solidCellSize l ss
      let cells := ws.map fun j => cellCoordAt waterCellSize (l.getD j default).pos
      let dens := ws.map fun j => waterPass1At rsqrt l j
      let l2 := waterForcePass rsqrt ws dens wbk cells l
      ws.enum.foldl
        (fun st p =>
          let idx := p.1
          let wi := p.2
          let c := cells.getD idx (0, 0)
          let baseRange := (st.getD wi default).radius + waterRestDistance
          neighborOffsets.foldl
            (fun st o =>
              (sbk (hashKey (c.1 + o.1) (c.2 + o.2))).foldl
                (fun st si => waterBoundaryStep rsqrt wi baseRange st si) st)
            st)
        l2

/-- One gas neighbor handled in the gas pairwise pass: pure repulsive
pressure plus viscosity. -/
def gasPairStep (rsqrt : ℚ → ℚ) (gi : Nat) (st : List Ball) (nj : Nat) : List Ball :=
  if nj ≤ gi then st
  else
    let pB := st.getD gi default
    let pN := st.getD nj default
    let dx := pN.pos.x - pB.pos.x
    let dy := pN.pos.y - pB.pos.y
    let distSq := dx * dx + dy * dy
    if distSq ≥ gasInteraction * gasInteraction ∨
       distSq < minimumSeparation * minimumSeparation then st
    else
      let dist := rsqrt distSq
      if dist ≤ 0 then st
      else
        let nx := dx / dist
        let ny := dy / dist
        let q := 1 - dist / gasInteraction
        let pressure := gasPressure * q * q
        let impulseX := nx * pressure
        let impulseY := ny * pressure
        let a := st.getD gi default
        let b := st.getD nj default
        let st1 :=
          (st.set gi { a with velocity := ⟨a.velocity.vx - impulseX,
                                           a.velocity.vy - impulseY⟩ }).set nj
            { b with velocity := ⟨b.velocity.vx + impulseX,
                                  b.velocity.vy + impulseY⟩ }
        let a1 := st1.getD gi default
        let b1 := st1.getD nj default
        let relVelX := b1.velocity.vx - a1.velocity.vx
        let relVelY := b1.velocity.vy - a1.velocity.vy
        let relAlongNormal := relVelX * nx + relVelY * ny
        let viscImpulse := relAlongNormal * gasViscosity * q * 0.5
        let viscX := nx * viscImpulse
        let viscY := ny * viscImpulse
        (st1.set gi { a1 with velocity := ⟨a1.velocity.vx + viscX,
                                           a1.velocity.vy + viscY⟩ }).set nj
          { b1 with velocity := ⟨b1.velocity.vx - viscX,
                                 b1.velocity.vy - viscY⟩ }

/-- One solid neighbor handled in the gas boundary pass: like the water
boundary pass with gas coefficients and 15% reaction strength. -/
def gasBoundaryStep (rsqrt : ℚ → ℚ) (gi : Nat) (baseRange : ℚ) (st : List Ball)
    (si : Nat) : List Ball :=
  let gb := st.getD gi default
  let sb := st.getD si default
  let dx := gb.pos.x - sb.pos.x
  let dy := gb.pos.y - sb.pos.y
  let allowed := sb.radius + baseRange
  let distSq := dx * dx + dy * dy
  if distSq ≥ allowed * allowed ∨ distSq < minimumSeparation * minimumSeparation then st
  else
    let dist := rsqrt distSq
    if dist ≤ 0 then st
    else
      let nx := dx / dist
      let ny := dy / dist
      let penetration := allowed - dist
      let push := penetration * gasBoundaryPush
      let st1 := st.set gi { gb with velocity := ⟨gb.velocity.vx + nx * push,
                                                  gb.velocity.vy + ny * push⟩ }
      let sb1 := st1.getD si default
      let st2 :=
        if sb1.material ≠ MaterialStatic then
          st1.set si { sb1 with velocity := ⟨sb1.velocity.vx - nx * push * 0.15,
                                             sb1.velocity.vy - ny * push * 0.15⟩ }
        else st1
      let tx := -ny
      let ty := nx
      let gb2 := st2.getD gi default
      let sb2 := st2.getD si default
      let relVelX := gb2.velocity.vx - sb2.velocity.vx
      let relVelY := gb2.velocity.vy - sb2.velocity.vy
      let relTangential := relVelX * tx + relVelY * ty
      let drag := relTangential * gasBoundaryDrag
      let st3 := st2.set gi { gb2 with velocity := ⟨gb2.velocity.vx - tx * drag,
                                                    gb2.velocity.vy - ty * drag⟩ }
      let sb3 := st3.getD si default
      if sb3.material ≠ MaterialStatic then
        st3.set si { sb3 with velocity := ⟨sb3.velocity.vx + tx * drag * 0.15,
                                           sb3.velocity.vy + ty * drag * 0.15⟩ }
      else st3

/-- Source applyGasForces: buoyancy and anisotropic drag, pairwise
repulsion/viscosity, then the boundary pass against the solid grid (queried,
as in the source, with gas-grid cell coordinates). -/
def applyGasForces (rsqrt : ℚ → ℚ) (l : List Ball) : List Ball :=
  let gs := gasIndicesOf l
  if gs.length = 0 then l
  else
    let gbk := gridBuild gasCellSize l gs
    let cells := gs.map fun j => cellCoordAt gasCellSize (l.getD j default).pos
    let ss := solidIndicesOf l
    let sbk := gridBuild solidCellSize l ss
    let dragFactorX := 1 - gasDrag
    let dragFactorY := 1 - gasDrag * 0.5
    let l1 :=
      gs.foldl
        (fun st gi =>
          let b := st.getD gi default
          st.set gi { b with velocity := ⟨b.velocity.vx * dragFactorX,
                                          (b.velocity.vy - gasBuoyancy) * dragFactorY⟩ })
        l
    let l2 :=
      gs.enum.foldl
        (fun st p =>
          let idx := p.1
          let gi := p.2
          let c := cells.getD idx (0, 0)
          neighborOffsets.foldl
            (fun st o =>
              (gbk (hashKey (c.1 + o.1) (c.2 + o.2))).foldl
                (fun st nj => gasPairStep rsqrt gi st nj) st)
            st)
        l1
    if ss.length = 0 then l2
    else
      gs.enum.foldl
        (fun st p =>
          let idx := p.1
          let gi := p.2
          let c := cells.getD idx (0, 0)
          let baseRange := (st.getD gi default).radius + gasRestDistance
          neighborOffsets.foldl
            (fun st o =>
              (sbk (hashKey (c.1 + o.1) (c.2 + o.2))).foldl
                (fun st si => gasBoundaryStep rsqrt gi baseRange st si) st)
            st)
        l2

/-- Physics portion of Game.Update, in source order: water forces, then gas
forces, then the integrator, then the collision solver.  (The cursor-driven
external influences of the source run before all four and are an input to
the core, not part of it.) -/
def physicsFrame (rsqrt : ℚ → ℚ) (s : Settings) (W H : ℚ) (l : List Ball) : List Ball :=
  let l1 := applyWaterForces rsqrt l
  let l2 := applyGasForces rsqrt l1
  let l3 := integratorPass rsqrt s W H l2
  collisionPass rsqrt s.collisionRestitution l3

/-- Modelled from the spec, claim C1 order: the Integrator (gravity, drag,
velocity clamp, position advance, boundary reflection) runs before either
force model applies its velocity perturbations, then FluidForceModel, then
GasForceModel, then the CollisionResolver iterations. -/
def physicsFrameSpecOrder (rsqrt : ℚ → ℚ) (s : Settings) (W H : ℚ) (l : List Ball) :
    List Ball :=
  let l1 := integratorPass rsqrt s W H l
  let l2 := applyWaterForces rsqrt l1
  let l3 := applyGasForces rsqrt l2
  collisionPass rsqrt s.collisionRestitution l3

/-- The Bool resolveCollisionCustom returns, written as a predicate of the
two balls: overlap at call time (the two early-return guards negated). -/
def overlapReported (rsqrt : ℚ → ℚ) (b1 b2 : Ball) : Bool :=
  decide (distSqBetween b1 b2 < (b1.radius + b2.radius) * (b1.radius + b2.radius)) &&
  decide (0 < (b1.radius + b2.radius) - rsqrt (clampedDistSq b1 b2))

/-- Whether a candidate pair of the sweep reports an overlap: skipped pairs
(water-water, gas-gas) report nothing, the others report the resolver's
Bool. -/
def pairReports (rsqrt : ℚ → ℚ) (restitution : ℚ) (l : List Ball) (p : Nat × Nat) : Bool :=
  match collideParams restitution (l.getD p.1 default).material
      (l.getD p.2 default).material with
  | none => false
  | some _ => overlapReported rsqrt (l.getD p.1 default) (l.getD p.2 default)

/-- Invariant relating a state `st` to a reference state `l`: same length,
same materials everywhere, and every ball that is static in `l` is untouched
in `st`. -/
def StaticInv (l st : List Ball) : Prop :=
  st.length = l.length ∧
  (∀ i, (st.getD i default).material = (l.getD i default).material) ∧
  (∀ i, (l.getD i default).material = MaterialStatic →
     st.getD i default = l.getD i default)

/-- Square-root model that is never consulted on the probe inputs below. -/
def rsqrtZero : ℚ → ℚ := fun _ => 0

/-- Square-root model that is exact at 225, the squared distance of the two
solid probe balls below. -/
def rsqrt225 : ℚ → ℚ := fun q => if q = 225 then 15 else 0

/-- Square-root model that is exact at the clamped minimum separation. -/
def rsqrtEps : ℚ → ℚ :=
  fun q => if q = minimumSeparation * minimumSeparation then minimumSeparation else 0

/-- Square-root model that is exact at 36, the squared distance of the two
water probe balls below. -/
def rsqrt36 : ℚ → ℚ := fun q => if q = 36 then 6 else 0

/-- Concrete gas particle resting mid-arena, used to probe the frame order. -/
def gasProbe : Ball := ⟨⟨500, 500⟩, ⟨0, 0⟩, 5, ShapeType.ShapeGas, MaterialGas⟩

/-- Concrete solid particle at the origin, radius 10. -/
def solidProbeA : Ball := ⟨⟨0, 0⟩, ⟨0, 0⟩, 10, ShapeType.ShapeCircle, MaterialSolid⟩

/-- Concrete solid particle 15 units to the right of solidProbeA, radius 10:
the two overlap by 5. -/
def solidProbeB : Ball := ⟨⟨15, 0⟩, ⟨0, 0⟩, 10, ShapeType.ShapeCircle, MaterialSolid⟩

/-- Concrete solid particle used as the near-coincident partner of
solidProbeA: distance 1/20000, below the minimum-separation epsilon. -/
def solidProbeNear : Ball := ⟨⟨0, 1 / 20000⟩, ⟨0, 0⟩, 10, ShapeType.ShapeCircle, MaterialSolid⟩

/-- Concrete static particle, used to probe static-fixedness. -/
def staticProbe : Ball := ⟨⟨100, 100⟩, ⟨0, 0⟩, 10, ShapeType.ShapeStatic, MaterialStatic⟩

/-- Concrete mobile solid particle away from the static probe. -/
def solidProbeFar : Ball := ⟨⟨300, 300⟩, ⟨0, 0⟩, 10, ShapeType.ShapeCircle, MaterialSolid⟩

/-- Concrete water particle. -/
def waterProbeA : Ball := ⟨⟨100, 100⟩, ⟨0, 0⟩, 5, ShapeType.ShapeWater, MaterialWater⟩

/-- Concrete water particle 6 units to the right of waterProbeA, inside the
water interaction radius. -/
def waterProbeB : Ball := ⟨⟨106, 100⟩, ⟨0, 0⟩, 5, ShapeType.ShapeWater, MaterialWater⟩

/-- Swap of the entries at two positions of the particle array. -/
def swapAt (l : List Ball) (a b : Nat) : List Ball :=
  (l.set a (l.getD b default)).set b (l.getD a default)

/-- Square-root model that is exact at 100, the squared speed of the fast
probe ball below. -/
def rsqrt100 : ℚ → ℚ := fun q => if q = 100 then 10 else 0

/-- Square-root model that is exact at 25, the squared distance of the two
overlapping static probe balls below. -/
def rsqrt25 : ℚ → ℚ := fun q => if q = 25 then 5 else 0

/-- Settings with no gravity and no drag, cap 5, full ground restitution
and friction, used to probe the integrator velocity clamp. -/
def settingsProbe : Settings :=
  { defaultSettings with
    gravity := 0
    airDrag := 0
    maxSpeed := 5
    groundRestitution := 1
    groundFriction := 1 }

/-- Concrete solid ball mid-arena moving at speed 10, above the probe cap 5. -/
def fastProbe : Ball := ⟨⟨500, 500⟩, ⟨6, 8⟩, 5, ShapeType.ShapeCircle, MaterialSolid⟩

/-- Concrete static particle overlapping staticProbe by 15 units. -/
def staticProbeB : Ball := ⟨⟨105, 100⟩, ⟨0, 0⟩, 10, ShapeType.ShapeStatic, MaterialStatic⟩

/-! General helper lemmas. -/

theorem foldl_inv_mem {α β : Type _} (P : β → Prop) (f : β → α → β) :
    ∀ (l : List α) (b : β), P b → (∀ s a, a ∈ l → P s → P (f s a)) → P (l.foldl f b) := by
  intro l
  induction l with
  | nil => intro b hb _; exact hb
  | cons a t ih =>
      intro b hb hf
      exact ih (f b a) (hf b a (by simp) hb) fun s x hx hs => hf s x (by simp [hx]) hs

theorem set_getD_self : ∀ (l : List Ball) (n : Nat), l.set n (l.getD n default) = l := by
  intro l
  induction l with
  | nil => intro n; rfl
  | cons a t ih =>
      intro n
      cases n with
      | zero => simp
      | succ m => simpa using ih m

/-- C9: hashKey is injective on pairs of signed 32-bit cell coordinates, so
the 64-bit cell key packing is collision-free at negative and large indices. -/
theorem c9_hashKey_injective (ix iy jx jy : Int)
    (hix1 : -(2 ^ 31) ≤ ix) (hix2 : ix < 2 ^ 31)
    (hiy1 : -(2 ^ 31) ≤ iy) (hiy2 : iy < 2 ^ 31)
    (hjx1 : -(2 ^ 31) ≤ jx) (hjx2 : jx < 2 ^ 31)
    (hjy1 : -(2 ^ 31) ≤ jy) (hjy2 : jy < 2 ^ 31)
    (h : hashKey ix iy = hashKey jx jy) : ix = jx ∧ iy = jy := by
  have k1 : ∀ z : Int, -(2 ^ 31) ≤ z → z < 2 ^ 31 → (z % (2 ^ 32 : Int)).toNat < 2 ^ 32 := by
    intro z h1 h2
    omega
  have e : ∀ a b : Nat, b < 2 ^ 32 → (a <<< 32) ||| b = 2 ^ 32 * a + b := by
    intro a b hb
    rw [Nat.shiftLeft_eq, Nat.mul_comm]
    exact (Nat.mul_add_lt_is_or hb a).symm
  simp only [hashKey] at h
  rw [e _ _ (k1 iy hiy1 hiy2), e _ _ (k1 jy hjy1 hjy2)] at h
  split_ifs at h <;> omega

/-- C9 witness: the injectivity theorem applied at the concrete coordinate
pair (-3, 5). -/
theorem c9_hashKey_injective_witness : (-3 : Int) = -3 ∧ (5 : Int) = 5 :=
  c9_hashKey_injective (-3) 5 (-3) 5 (by decide) (by decide) (by decide) (by decide)
    (by decide) (by decide) (by decide) (by decide) rfl

/-- C6: the sweep dispatch skips water-water and gas-gas pairs, uses
restitution x 0.2 / friction 0.04 for water-gas pairs, restitution x 0.25 /
friction 0.05 for the other pairs involving water, restitution x 0.3 /
friction 0.02 for the other pairs involving gas, and the full restitution
with the baseline friction 0.5 for all remaining pairs. -/
theorem c6_material_dispatch (r : ℚ) (ma mb : MaterialType) :
    collideParams r ma mb =
      (if (ma = MaterialWater ∧ mb = MaterialWater) ∨
          (ma = MaterialGas ∧ mb = MaterialGas) then none
       else if (ma = MaterialWater ∧ mb = MaterialGas) ∨
               (ma = MaterialGas ∧ mb = MaterialWater) then some (r * 0.2, 0.04)
       else if ma = MaterialWater ∨ mb = MaterialWater then some (r * 0.25, 0.05)
       else if ma = MaterialGas ∨ mb = MaterialGas then some (r * 0.3, 0.02)
       else some (r, 0.5)) := by
  cases ma <;> cases mb <;> rfl

/-- C1 counterexample: at a concrete one-gas-particle state the source
order (force models before the integrator) and the claimed order (integrator
before the force models) give different frames, so the Integrator does not
run before the force models. -/
theorem c1_order_counterexample :
    physicsFrame rsqrtZero defaultSettings 1000 1000 [gasProbe] ≠
      physicsFrameSpecOrder rsqrtZero defaultSettings 1000 1000 [gasProbe] := by
  with_unfolding_all decide

/-- C1 amended: in every frame the physics components run in the order
external influences (an input to the core), then FluidForceModel, then
GasForceModel, then the Integrator, and then the CollisionResolver
iterations; the Integrator runs after both force models. -/
theorem c1_frame_order (rsqrt : ℚ → ℚ) (s : Settings) (W H : ℚ) (l : List Ball) :
    physicsFrame rsqrt s W H l =
      collisionPass rsqrt s.collisionRestitution
        (integratorPass rsqrt s W H (applyGasForces rsqrt (applyWaterForces rsqrt l))) := rfl

/-- Helper: the two early-return branches of the resolver leave both balls
unchanged. -/
theorem resolve_early_id (rsqrt : ℚ → ℚ) (b1 b2 : Ball) (rest fr : ℚ)
    (h : distSqBetween b1 b2 ≥ (b1.radius + b2.radius) * (b1.radius + b2.radius) ∨
         (b1.radius + b2.radius) - rsqrt (clampedDistSq b1 b2) ≤ 0) :
    resolveCollisionCustom rsqrt b1 b2 rest fr = (b1, b2, false) := by
  unfold resolveCollisionCustom
  rcases h with h | h
  · rw [if_pos h]
  · by_cases h0 : distSqBetween b1 b2 ≥ (b1.radius + b2.radius) * (b1.radius + b2.radius)
    · rw [if_pos h0]
    · rw [if_neg h0, if_pos h]

/-- Helper: when the pair overlaps, the overlap is positive and both balls
are mobile, the resolver moves each center half the corrected separation
along the normal (and never again touches positions in the impulse and
friction stages). -/
theorem resolve_mobile_positions (rsqrt : ℚ → ℚ) (b1 b2 : Ball) (rest fr : ℚ)
    (hm1 : mobilityFor b1.material = 1) (hm2 : mobilityFor b2.material = 1)
    (hlt : distSqBetween b1 b2 < (b1.radius + b2.radius) * (b1.radius + b2.radius))
    (hovp : 0 < (b1.radius + b2.radius) - rsqrt (clampedDistSq b1 b2)) :
    ∃ sh : ℚ,
      sh = ((b1.radius + b2.radius) - rsqrt (clampedDistSq b1 b2) + penetrationSlop) / 2 ∧
      (resolveCollisionCustom rsqrt b1 b2 rest fr).1.pos =
        ⟨b1.pos.x - (collisionNormal rsqrt b1 b2).1 * sh,
         b1.pos.y - (collisionNormal rsqrt b1 b2).2 * sh⟩ ∧
      (resolveCollisionCustom rsqrt b1 b2 rest fr).2.1.pos =
        ⟨b2.pos.x + (collisionNormal rsqrt b1 b2).1 * sh,
         b2.pos.y + (collisionNormal rsqrt b1 b2).2 * sh⟩ := by
  simp only [resolveCollisionCustom]
  rw [if_neg (not_le.mpr hlt), if_neg (not_le.mpr hovp), hm1, hm2]
  have hpos1 : ((1 : ℚ) > 0) := by norm_num
  have hne : ¬((1 : ℚ) + 1 = 0) := by norm_num
  simp only [if_pos hpos1, if_neg hne]
  split_ifs <;>
    exact ⟨(b1.radius + b2.radius - rsqrt (clampedDistSq b1 b2) + penetrationSlop) *
      (1 / (1 + 1)), by ring, rfl, rfl⟩

/-- C7 counterexample: a pair closer than the minimum-separation epsilon but
not coincident, where the claimed (1,0) fallback normal does not occur: the
computed separating normal is (0, 1/2). -/
theorem c7_normal_counterexample :
    distSqBetween solidProbeA solidProbeNear < minimumSeparation * minimumSeparation ∧
    collisionNormal rsqrtEps solidProbeA solidProbeNear ≠ (1, 0) := by
  have h : collisionNormal rsqrtEps solidProbeA solidProbeNear = (0, 1 / 2) := by
    norm_num [collisionNormal, clampedDistSq, distSqBetween, rsqrtEps, solidProbeA,
      solidProbeNear, minimumSeparation]
  refine ⟨by norm_num [distSqBetween, solidProbeA, solidProbeNear, minimumSeparation], ?_⟩
  rw [h]
  intro hc
  rw [Prod.ext_iff] at hc
  norm_num at hc

/-- C7 amended: whenever the distance of the two particles is below the
minimum-separation epsilon, the denominator is clamped to the epsilon (a
positive value, so the divisions are well defined), the separating normal is
the displacement divided by the epsilon, and it falls back to nx=1, ny=0
exactly when the particles are exactly coincident. -/
theorem c7_degenerate_normal (rsqrt : ℚ → ℚ) (b1 b2 : Ball)
    (hlt : distSqBetween b1 b2 < minimumSeparation * minimumSeparation)
    (hr : rsqrt (minimumSeparation * minimumSeparation) = minimumSeparation) :
    clampedDistSq b1 b2 = minimumSeparation * minimumSeparation ∧
    collisionNormal rsqrt b1 b2 =
      (if b2.pos.x - b1.pos.x = 0 ∧ b2.pos.y - b1.pos.y = 0 then ((1 : ℚ), (0 : ℚ))
       else ((b2.pos.x - b1.pos.x) / minimumSeparation,
             (b2.pos.y - b1.pos.y) / minimumSeparation)) := by
  have hcl : clampedDistSq b1 b2 = minimumSeparation * minimumSeparation := by
    unfold clampedDistSq
    rw [if_pos hlt]
  refine ⟨hcl, ?_⟩
  unfold collisionNormal
  rw [hcl, hr]
  have hε : (minimumSeparation : ℚ) ≠ 0 := by norm_num [minimumSeparation]
  by_cases hx : b2.pos.x - b1.pos.x = 0 <;> by_cases hy : b2.pos.y - b1.pos.y = 0 <;>
    simp [hx, hy, div_eq_zero_iff, hε]

/-- C7 witness: the amended theorem applied to an exactly coincident pair,
where the fallback normal (1,0) is chosen. -/
theorem c7_degenerate_normal_witness :
    clampedDistSq solidProbeA solidProbeA = minimumSeparation * minimumSeparation ∧
    collisionNormal rsqrtEps solidProbeA solidProbeA =
      (if solidProbeA.pos.x - solidProbeA.pos.x = 0 ∧
          solidProbeA.pos.y - solidProbeA.pos.y = 0 then ((1 : ℚ), (0 : ℚ))
       else ((solidProbeA.pos.x - solidProbeA.pos.x) / minimumSeparation,
             (solidProbeA.pos.y - solidProbeA.pos.y) / minimumSeparation)) :=
  c7_degenerate_normal rsqrtEps solidProbeA solidProbeA
    (by norm_num [distSqBetween, solidProbeA, minimumSeparation])
    (by norm_num [rsqrtEps])

/-- C4 counterexample: two mobile solid balls of radius 10 at distance 15
(overlap 5); one positional correction moves them to squared separation
400.040001, strictly beyond (radius1+radius2)^2 = 400, because of the added
penetration slop. -/
theorem c4_overshoot_counterexample :
    distSqBetween (resolveCollisionCustom rsqrt225 solidProbeA solidProbeB 0.85 0.5).1
        (resolveCollisionCustom rsqrt225 solidProbeA solidProbeB 0.85 0.5).2.1 >
      (solidProbeA.radius + solidProbeB.radius) ^ 2 := by
  with_unfolding_all decide

/-- C4 amended: one positional correction of two overlapping mobile
particles never moves them to a separation greater than
radius1 + radius2 + penetrationSlop (it overshoots full separation by
exactly the constant penetration slop in the non-degenerate case). -/
theorem c4_separation_bound (rsqrt : ℚ → ℚ) (b1 b2 : Ball) (rest fr : ℚ)
    (h1 : b1.material ≠ MaterialStatic) (h2 : b2.material ≠ MaterialStatic)
    (hr1 : 0 ≤ b1.radius) (hr2 : 0 ≤ b2.radius)
    (hov : distSqBetween b1 b2 < (b1.radius + b2.radius) ^ 2)
    (hs0 : 0 ≤ rsqrt (clampedDistSq b1 b2))
    (hs1 : rsqrt (clampedDistSq b1 b2) * rsqrt (clampedDistSq b1 b2) =
      clampedDistSq b1 b2) :
    distSqBetween (resolveCollisionCustom rsqrt b1 b2 rest fr).1
        (resolveCollisionCustom rsqrt b1 b2 rest fr).2.1
      ≤ (b1.radius + b2.radius + penetrationSlop) ^ 2 := by
  have hslop : (0 : ℚ) < penetrationSlop := by norm_num [penetrationSlop]
  have hcR : (0 : ℚ) ≤ b1.radius + b2.radius := by linarith
  have hε : (0 : ℚ) < minimumSeparation := by norm_num [minimumSeparation]
  have hov' : distSqBetween b1 b2 < (b1.radius + b2.radius) * (b1.radius + b2.radius) := by
    rw [← pow_two]
    exact hov
  set D := rsqrt (clampedDistSq b1 b2) with hD
  have hDD : D * D = clampedDistSq b1 b2 := hs1
  have hclpos : 0 < clampedDistSq b1 b2 := by
    simp only [clampedDistSq]
    split_ifs with h
    · positivity
    · push_neg at h
      nlinarith
  have hDpos : 0 < D := by
    rcases lt_or_eq_of_le hs0 with h | h
    · exact h
    · exfalso
      rw [← h] at hDD
      simp at hDD
      rw [← hDD] at hclpos
      exact lt_irrefl 0 hclpos
  by_cases hovp : 0 < (b1.radius + b2.radius) - D
  · -- the correction runs; both mobile
    have hm1 : mobilityFor b1.material = 1 := by simp [mobilityFor, h1]
    have hm2 : mobilityFor b2.material = 1 := by simp [mobilityFor, h2]
    obtain ⟨sh, hsh, hp1, hp2⟩ :=
      resolve_mobile_positions rsqrt b1 b2 rest fr hm1 hm2 hov' hovp
    set sep := (b1.radius + b2.radius) - D + penetrationSlop with hsep
    have hseppos : 0 < sep := by positivity
    have hsh2 : sh + sh = sep := by
      rw [hsh, hsep]
      ring
    have hkey : distSqBetween (resolveCollisionCustom rsqrt b1 b2 rest fr).1
        (resolveCollisionCustom rsqrt b1 b2 rest fr).2.1 =
        ((b2.pos.x - b1.pos.x) + (collisionNormal rsqrt b1 b2).1 * (sh + sh)) ^ 2 +
        ((b2.pos.y - b1.pos.y) + (collisionNormal rsqrt b1 b2).2 * (sh + sh)) ^ 2 := by
      simp only [distSqBetween, hp1, hp2]
      ring
    rw [hsh2] at hkey
    rw [hkey]
    have hgoal : D + sep = b1.radius + b2.radius + penetrationSlop := by
      rw [hsep]
      ring
    -- case split on the fallback of the normal
    by_cases hfb : (b2.pos.x - b1.pos.x) / D = 0 ∧ (b2.pos.y - b1.pos.y) / D = 0
    · have hx0 : b2.pos.x - b1.pos.x = 0 := by
        have := hfb.1
        field_simp at this
        exact this
      have hy0 : b2.pos.y - b1.pos.y = 0 := by
        have := hfb.2
        field_simp at this
        exact this
      have hn : collisionNormal rsqrt b1 b2 = (1, 0) := by
        unfold collisionNormal
        rw [← hD]
        rw [if_pos hfb, hy0]
        simp
      rw [hn, hx0, hy0]
      have hDle : D ≤ b1.radius + b2.radius := le_of_lt (by linarith)
      have : (0 : ℚ) + 1 * sep = sep := by ring
      rw [this]
      simp only [zero_add, one_mul, zero_mul, add_zero]
      have h1' : sep ≤ b1.radius + b2.radius + penetrationSlop := by
        rw [hsep]
        linarith
      nlinarith
    · have hn : collisionNormal rsqrt b1 b2 =
          ((b2.pos.x - b1.pos.x) / D, (b2.pos.y - b1.pos.y) / D) := by
        unfold collisionNormal
        rw [← hD, if_neg hfb]
      rw [hn]
      have hexp : ((b2.pos.x - b1.pos.x) + (b2.pos.x - b1.pos.x) / D * sep) ^ 2 +
          ((b2.pos.y - b1.pos.y) + (b2.pos.y - b1.pos.y) / D * sep) ^ 2 =
          distSqBetween b1 b2 * ((D + sep) / D) ^ 2 := by
        unfold distSqBetween
        field_simp
        ring
      rw [hexp, hgoal]
      have hbound : distSqBetween b1 b2 ≤ D * D := by
        rw [hDD]
        simp only [clampedDistSq]
        split_ifs with h
        · exact le_of_lt h
        · exact le_refl _
      have hfinal : distSqBetween b1 b2 *
          ((b1.radius + b2.radius + penetrationSlop) / D) ^ 2 ≤
          (D * D) * ((b1.radius + b2.radius + penetrationSlop) / D) ^ 2 := by
        apply mul_le_mul_of_nonneg_right hbound
        positivity
      calc distSqBetween b1 b2 * ((b1.radius + b2.radius + penetrationSlop) / D) ^ 2
          ≤ (D * D) * ((b1.radius + b2.radius + penetrationSlop) / D) ^ 2 := hfinal
        _ = (b1.radius + b2.radius + penetrationSlop) ^ 2 := by
            field_simp
            ring
  · -- overlap not positive: the resolver returns both balls unchanged
    push_neg at hovp
    rw [resolve_early_id rsqrt b1 b2 rest fr (Or.inr (by linarith))]
    have : distSqBetween b1 b2 < (b1.radius + b2.radius) ^ 2 := hov
    nlinarith

/-- C4 witness: the amended bound applied to the two concrete probe balls;
their corrected squared separation 400.040001 is within the slop-extended
bound (20.001)^2. -/
theorem c4_separation_bound_witness :
    distSqBetween (resolveCollisionCustom rsqrt225 solidProbeA solidProbeB 0.85 0.5).1
        (resolveCollisionCustom rsqrt225 solidProbeA solidProbeB 0.85 0.5).2.1
      ≤ (solidProbeA.radius + solidProbeB.radius + penetrationSlop) ^ 2 :=
  c4_separation_bound rsqrt225 solidProbeA solidProbeB 0.85 0.5
    (by with_unfolding_all decide) (by with_unfolding_all decide)
    (by with_unfolding_all decide) (by with_unfolding_all decide)
    (by with_unfolding_all decide) (by with_unfolding_all decide)
    (by with_unfolding_all decide)

/-- Helper: the velocity clamp never leaves a squared speed above the cap,
given an exact square root at the single point it consults. -/
theorem clampVelocity_speedSq_le (rsqrt : ℚ → ℚ) (ms : ℚ) (v : Velocity)
    (hms : 0 ≤ ms)
    (hsq : ms * ms < speedSqV v →
      0 < rsqrt (speedSqV v) ∧ rsqrt (speedSqV v) * rsqrt (speedSqV v) = speedSqV v) :
    speedSqV (clampVelocity rsqrt ms v) ≤ ms * ms := by
  simp only [clampVelocity]
  split_ifs with h
  · obtain ⟨hr0, hrr⟩ := hsq h
    have hS : speedSqV v ≠ 0 := by
      have : (0 : ℚ) ≤ ms * ms := by positivity
      exact ne_of_gt (lt_of_le_of_lt this h)
    have he : speedSqV ⟨v.vx * (ms / rsqrt (speedSqV v)), v.vy * (ms / rsqrt (speedSqV v))⟩
        = ms * ms := by
      have h1 : speedSqV ⟨v.vx * (ms / rsqrt (speedSqV v)), v.vy * (ms / rsqrt (speedSqV v))⟩
          = speedSqV v * ((ms * ms) / (rsqrt (speedSqV v) * rsqrt (speedSqV v))) := by
        simp only [speedSqV]
        ring
      rw [h1, hrr]
      field_simp
    exact le_of_eq he
  · exact not_lt.mp h

/-- Helper: the clamp only rescales the velocity by a positive factor, so it
never changes its direction. -/
theorem clampVelocity_scales (rsqrt : ℚ → ℚ) (ms : ℚ) (v : Velocity) (hms : 0 < ms)
    (h0 : ms * ms < speedSqV v → 0 < rsqrt (speedSqV v)) :
    ∃ c : ℚ, 0 < c ∧ clampVelocity rsqrt ms v = ⟨v.vx * c, v.vy * c⟩ := by
  simp only [clampVelocity]
  split_ifs with h
  · exact ⟨ms / rsqrt (speedSqV v), div_pos hms (h0 h), rfl⟩
  · exact ⟨1, one_pos, by cases v; simp⟩

/-- Helper: the top-barrier reflection never increases the squared speed
when the restitution coefficient lies in the unit interval. -/
theorem reflectTop_speedSq_le (s : Settings) (b : Ball)
    (hgr0 : 0 ≤ s.groundRestitution) (hgr1 : s.groundRestitution ≤ 1) :
    speedSqB (reflectTop s b) ≤ speedSqB b := by
  simp only [reflectTop]
  split_ifs with h
  · simp only [speedSqB, speedSqV]
    have hsq : s.groundRestitution * s.groundRestitution ≤ 1 := by nlinarith
    nlinarith [sq_nonneg b.velocity.vy, sq_nonneg b.velocity.vx,
      mul_self_nonneg b.velocity.vy]
  · exact le_refl _

/-- Helper: the bottom-floor reflection never increases the squared speed
when restitution and friction lie in the unit interval. -/
theorem reflectBottom_speedSq_le (s : Settings) (H : ℚ) (b : Ball)
    (hgr0 : 0 ≤ s.groundRestitution) (hgr1 : s.groundRestitution ≤ 1)
    (hgf0 : 0 ≤ s.groundFriction) (hgf1 : s.groundFriction ≤ 1) :
    speedSqB (reflectBottom s H b) ≤ speedSqB b := by
  simp only [reflectBottom]
  split_ifs with h
  · simp only [speedSqB, speedSqV]
    have hsq : s.groundRestitution * s.groundRestitution ≤ 1 := by nlinarith
    have hsf : s.groundFriction * s.groundFriction ≤ 1 := by nlinarith
    nlinarith [sq_nonneg b.velocity.vy, sq_nonneg b.velocity.vx]
  · exact le_refl _

/-- Helper: the left-wall reflection never increases the squared speed when
the restitution coefficient lies in the unit interval. -/
theorem reflectLeft_speedSq_le (s : Settings) (b : Ball)
    (hgr0 : 0 ≤ s.groundRestitution) (hgr1 : s.groundRestitution ≤ 1) :
    speedSqB (reflectLeft s b) ≤ speedSqB b := by
  simp only [reflectLeft]
  split_ifs with h
  · simp only [speedSqB, speedSqV]
    have hsq : s.groundRestitution * s.groundRestitution ≤ 1 := by nlinarith
    nlinarith [sq_nonneg b.velocity.vx, sq_nonneg b.velocity.vy]
  · exact le_refl _

/-- Helper: the right-wall reflection never increases the squared speed when
the restitution coefficient lies in the unit interval. -/
theorem reflectRight_speedSq_le (s : Settings) (W : ℚ) (b : Ball)
    (hgr0 : 0 ≤ s.groundRestitution) (hgr1 : s.groundRestitution ≤ 1) :
    speedSqB (reflectRight s W b) ≤ speedSqB b := by
  simp only [reflectRight]
  split_ifs with h
  · simp only [speedSqB, speedSqV]
    have hsq : s.groundRestitution * s.groundRestitution ≤ 1 := by nlinarith
    nlinarith [sq_nonneg b.velocity.vx, sq_nonneg b.velocity.vy]
  · exact le_refl _

/-- C3: for every non-static particle, immediately after the integrator the
squared speed is at most maxSpeed^2 (the clamp caps it and the boundary
reflections, with restitution and friction in the unit interval, only shrink
it), and the clamp itself rescales the velocity by a positive factor, hence
preserves its direction. -/
theorem c3_integrator_speed_cap (rsqrt : ℚ → ℚ) (s : Settings) (W H : ℚ) (b : Ball)
    (hstatic : b.material ≠ MaterialStatic)
    (hms : 0 < s.maxSpeed)
    (hgr0 : 0 ≤ s.groundRestitution) (hgr1 : s.groundRestitution ≤ 1)
    (hgf0 : 0 ≤ s.groundFriction) (hgf1 : s.groundFriction ≤ 1)
    (hsq : s.maxSpeed * s.maxSpeed < speedSqV (dragGravityVel s b) →
      0 < rsqrt (speedSqV (dragGravityVel s b)) ∧
      rsqrt (speedSqV (dragGravityVel s b)) * rsqrt (speedSqV (dragGravityVel s b)) =
        speedSqV (dragGravityVel s b)) :
    speedSqB (integratorStep rsqrt s W H b) ≤ s.maxSpeed * s.maxSpeed ∧
    ∃ c : ℚ, 0 < c ∧
      clampVelocity rsqrt s.maxSpeed (dragGravityVel s b) =
        ⟨(dragGravityVel s b).vx * c, (dragGravityVel s b).vy * c⟩ := by
  constructor
  · simp only [integratorStep]
    rw [if_neg hstatic]
    refine le_trans (reflectRight_speedSq_le s W _ hgr0 hgr1) ?_
    refine le_trans (reflectLeft_speedSq_le s _ hgr0 hgr1) ?_
    refine le_trans (reflectBottom_speedSq_le s H _ hgr0 hgr1 hgf0 hgf1) ?_
    refine le_trans (reflectTop_speedSq_le s _ hgr0 hgr1) ?_
    have hb3 : speedSqB
        { b with pos := ⟨b.pos.x + (clampVelocity rsqrt s.maxSpeed (dragGravityVel s b)).vx,
                         b.pos.y + (clampVelocity rsqrt s.maxSpeed (dragGravityVel s b)).vy⟩,
                 velocity := clampVelocity rsqrt s.maxSpeed (dragGravityVel s b) } =
        speedSqV (clampVelocity rsqrt s.maxSpeed (dragGravityVel s b)) := rfl
    rw [hb3]
    exact clampVelocity_speedSq_le rsqrt s.maxSpeed (dragGravityVel s b) (le_of_lt hms) hsq
  · exact clampVelocity_scales rsqrt s.maxSpeed (dragGravityVel s b) hms
      fun h => (hsq h).1

/-- C3 witness: the cap theorem applied to a concrete solid ball moving at
speed 10 under cap 5. -/
theorem c3_integrator_speed_cap_witness :
    speedSqB (integratorStep rsqrt100 settingsProbe 1000 1000 fastProbe) ≤
      settingsProbe.maxSpeed * settingsProbe.maxSpeed ∧
    ∃ c : ℚ, 0 < c ∧
      clampVelocity rsqrt100 settingsProbe.maxSpeed (dragGravityVel settingsProbe fastProbe) =
        ⟨(dragGravityVel settingsProbe fastProbe).vx * c,
         (dragGravityVel settingsProbe fastProbe).vy * c⟩ :=
  c3_integrator_speed_cap rsqrt100 settingsProbe 1000 1000 fastProbe
    (by simp [fastProbe])
    (by norm_num [settingsProbe, defaultSettings])
    (by norm_num [settingsProbe, defaultSettings])
    (by norm_num [settingsProbe, defaultSettings])
    (by norm_num [settingsProbe, defaultSettings])
    (by norm_num [settingsProbe, defaultSettings])
    (by
      intro h
      constructor <;>
        norm_num [rsqrt100, dragGravityVel, speedSqV, settingsProbe, defaultSettings,
          fastProbe])

/-- Helper: the Bool returned by the resolver equals the overlap predicate
of the two balls, independently of restitution, friction, materials and
velocities. -/
theorem resolve_bool_eq (rsqrt : ℚ → ℚ) (b1 b2 : Ball) (r f : ℚ) :
    (resolveCollisionCustom rsqrt b1 b2 r f).2.2 = overlapReported rsqrt b1 b2 := by
  by_cases h1 : distSqBetween b1 b2 ≥ (b1.radius + b2.radius) * (b1.radius + b2.radius)
  · rw [resolve_early_id rsqrt b1 b2 r f (Or.inl h1)]
    simp only [overlapReported]
    rw [decide_eq_false (not_lt.mpr h1)]
    simp
  · by_cases h2 : (b1.radius + b2.radius) - rsqrt (clampedDistSq b1 b2) ≤ 0
    · rw [resolve_early_id rsqrt b1 b2 r f (Or.inr h2)]
      simp only [overlapReported]
      rw [decide_eq_false (not_lt.mpr h2)]
      simp
    · have hL : (resolveCollisionCustom rsqrt b1 b2 r f).2.2 = true := by
        simp only [resolveCollisionCustom]
        rw [if_neg h1, if_neg h2]
        split_ifs <;> rfl
      rw [hL]
      simp only [overlapReported]
      rw [decide_eq_true (not_le.mp h1), decide_eq_true (not_le.mp h2)]
      rfl

/-- Helper: a pair whose resolution reported no overlap was returned
completely unchanged. -/
theorem resolve_false_id (rsqrt : ℚ → ℚ) (b1 b2 : Ball) (r f : ℚ)
    (h : (resolveCollisionCustom rsqrt b1 b2 r f).2.2 = false) :
    resolveCollisionCustom rsqrt b1 b2 r f = (b1, b2, false) := by
  rw [resolve_bool_eq] at h
  simp only [overlapReported, Bool.and_eq_false_iff, decide_eq_false_iff_not] at h
  exact resolve_early_id rsqrt b1 b2 r f (h.imp not_lt.mp not_lt.mp)

/-- Helper: a static-static pair is returned unchanged by the resolver (the
mobility-weight early return fires before any mutation). -/
theorem resolve_static_id (rsqrt : ℚ → ℚ) (b1 b2 : Ball) (r f : ℚ)
    (h1 : b1.material = MaterialStatic) (h2 : b2.material = MaterialStatic) :
    (resolveCollisionCustom rsqrt b1 b2 r f).1 = b1 ∧
    (resolveCollisionCustom rsqrt b1 b2 r f).2.1 = b2 := by
  have m1 : mobilityFor b1.material = 0 := by simp [mobilityFor, h1]
  have m2 : mobilityFor b2.material = 0 := by simp [mobilityFor, h2]
  simp only [resolveCollisionCustom, m1, m2]
  have hz : ((0 : ℚ) + 0 = 0) := by norm_num
  rw [if_pos hz]
  split_ifs <;> exact ⟨rfl, rfl⟩

/-- Helper: one sweep step when the material dispatch skips the pair. -/
theorem sweepStep_none (rsqrt : ℚ → ℚ) (rest : ℚ) (acc : List Ball × Bool) (p : Nat × Nat)
    (hc : collideParams rest (acc.1.getD p.1 default).material
      (acc.1.getD p.2 default).material = none) :
    sweepStep rsqrt rest acc p = acc := by
  simp only [sweepStep]
  rw [hc]

/-- Helper: one sweep step when the material dispatch resolves the pair. -/
theorem sweepStep_some (rsqrt : ℚ → ℚ) (rest : ℚ) (acc : List Ball × Bool) (p : Nat × Nat)
    (rf : ℚ × ℚ)
    (hc : collideParams rest (acc.1.getD p.1 default).material
      (acc.1.getD p.2 default).material = some rf) :
    sweepStep rsqrt rest acc p =
      (((acc.1.set p.1 (resolveCollisionCustom rsqrt (acc.1.getD p.1 default)
            (acc.1.getD p.2 default) rf.1 rf.2).1).set p.2
          (resolveCollisionCustom rsqrt (acc.1.getD p.1 default)
            (acc.1.getD p.2 default) rf.1 rf.2).2.1),
       acc.2 || (resolveCollisionCustom rsqrt (acc.1.getD p.1 default)
            (acc.1.getD p.2 default) rf.1 rf.2).2.2) := by
  simp only [sweepStep]
  rw [hc]

/-- Helper: the skipped-pair case of the report predicate. -/
theorem pairReports_none (rsqrt : ℚ → ℚ) (rest : ℚ) (l : List Ball) (p : Nat × Nat)
    (hc : collideParams rest (l.getD p.1 default).material
      (l.getD p.2 default).material = none) :
    pairReports rsqrt rest l p = false := by
  simp only [pairReports]
  rw [hc]

/-- Helper: the resolved-pair case of the report predicate. -/
theorem pairReports_some (rsqrt : ℚ → ℚ) (rest : ℚ) (l : List Ball) (p : Nat × Nat)
    (rf : ℚ × ℚ)
    (hc : collideParams rest (l.getD p.1 default).material
      (l.getD p.2 default).material = some rf) :
    pairReports rsqrt rest l p =
      overlapReported rsqrt (l.getD p.1 default) (l.getD p.2 default) := by
  simp only [pairReports]
  rw [hc]

/-- Helper: once the sweep flag is set it stays set through the fold. -/
theorem sweepStep_flag_mono (rsqrt : ℚ → ℚ) (rest : ℚ) (st : List Ball × Bool)
    (p : Nat × Nat) (h : st.2 = true) : (sweepStep rsqrt rest st p).2 = true := by
  cases hc : collideParams rest (st.1.getD p.1 default).material
      (st.1.getD p.2 default).material with
  | none => rw [sweepStep_none rsqrt rest st p hc]; exact h
  | some rf => rw [sweepStep_some rsqrt rest st p rf hc]; simp [h]

/-- Helper: a fold of sweep steps started with the flag set ends with the
flag set. -/
theorem sweep_foldl_flag_mono (rsqrt : ℚ → ℚ) (rest : ℚ) :
    ∀ (ps : List (Nat × Nat)) (acc : List Ball × Bool), acc.2 = true →
      (ps.foldl (sweepStep rsqrt rest) acc).2 = true := by
  intro ps
  induction ps with
  | nil => intro acc h; exact h
  | cons p t ih => intro acc h; exact ih _ (sweepStep_flag_mono rsqrt rest acc p h)

/-- Helper: a fold of sweep steps that ends with the flag still clear left
the state untouched, and every pair it visited reported no overlap against
that state. -/
theorem sweep_foldl_false (rsqrt : ℚ → ℚ) (rest : ℚ) :
    ∀ (ps : List (Nat × Nat)) (st : List Ball),
      (ps.foldl (sweepStep rsqrt rest) (st, false)).2 = false →
      (ps.foldl (sweepStep rsqrt rest) (st, false)).1 = st ∧
      ∀ p ∈ ps, pairReports rsqrt rest st p = false := by
  intro ps
  induction ps with
  | nil => intro st _; exact ⟨rfl, by simp⟩
  | cons p t ih =>
      intro st hflag
      rw [List.foldl_cons] at hflag ⊢
      have hs1 : (sweepStep rsqrt rest (st, false) p).2 = false := by
        by_contra hne
        have : (sweepStep rsqrt rest (st, false) p).2 = true := by
          cases hb : (sweepStep rsqrt rest (st, false) p).2
          · exact absurd hb hne
          · rfl
        have := sweep_foldl_flag_mono rsqrt rest t _ this
        rw [hflag] at this
        exact Bool.false_ne_true this
      have hid : sweepStep rsqrt rest (st, false) p = (st, false) ∧
          pairReports rsqrt rest st p = false := by
        cases hc : collideParams rest (st.getD p.1 default).material
            (st.getD p.2 default).material with
        | none =>
            exact ⟨sweepStep_none rsqrt rest (st, false) p hc,
              pairReports_none rsqrt rest st p hc⟩
        | some rf =>
            have hstep := sweepStep_some rsqrt rest (st, false) p rf hc
            have hres : (resolveCollisionCustom rsqrt (st.getD p.1 default)
                (st.getD p.2 default) rf.1 rf.2).2.2 = false := by
              rw [hstep] at hs1
              simpa using hs1
            have hid2 := resolve_false_id rsqrt (st.getD p.1 default)
              (st.getD p.2 default) rf.1 rf.2 hres
            constructor
            · rw [hstep, hid2]
              simp only []
              rw [set_getD_self, set_getD_self]
              simp
            · rw [pairReports_some rsqrt rest st p rf hc,
                ← resolve_bool_eq rsqrt (st.getD p.1 default)
                  (st.getD p.2 default) rf.1 rf.2, hres]
      rw [hid.1] at hflag ⊢
      obtain ⟨h1, h2⟩ := ih st hflag
      exact ⟨h1, by
        intro q hq
        rcases List.mem_cons.mp hq with hq | hq
        · rw [hq]; exact hid.2
        · exact h2 q hq⟩

/-- Helper: a sweep that reports no resolution leaves the state unchanged
and every candidate pair reports no overlap. -/
theorem collisionSweep_false (rsqrt : ℚ → ℚ) (rest : ℚ) (l : List Ball)
    (h : (collisionSweep rsqrt rest l).2 = false) :
    (collisionSweep rsqrt rest l).1 = l ∧
    ∀ p ∈ candidatePairs l, pairReports rsqrt rest l p = false :=
  sweep_foldl_false rsqrt rest (candidatePairs l) l h

/-- Helper: the solver loop runs at most `fuel` sweeps, and if it stops
early the final state is a fixed point whose candidate pairs all report no
overlap. -/
theorem solveLoop_spec (rsqrt : ℚ → ℚ) (rest : ℚ) :
    ∀ (fuel : Nat) (l : List Ball),
      (solveLoop rsqrt rest fuel l).2 ≤ fuel ∧
      ((solveLoop rsqrt rest fuel l).2 < fuel →
        (collisionSweep rsqrt rest (solveLoop rsqrt rest fuel l).1).2 = false ∧
        ∀ p ∈ candidatePairs (solveLoop rsqrt rest fuel l).1,
          pairReports rsqrt rest (solveLoop rsqrt rest fuel l).1 p = false) := by
  intro fuel
  induction fuel with
  | zero =>
      intro l
      constructor
      · simp [solveLoop]
      · intro h
        simp [solveLoop] at h
  | succ n ih =>
      intro l
      cases hr : (collisionSweep rsqrt rest l).2 with
      | true =>
          have he : solveLoop rsqrt rest (n + 1) l =
              ((solveLoop rsqrt rest n (collisionSweep rsqrt rest l).1).1,
               (solveLoop rsqrt rest n (collisionSweep rsqrt rest l).1).2 + 1) := by
            simp [solveLoop, hr]
          obtain ⟨ihle, ihlt⟩ := ih (collisionSweep rsqrt rest l).1
          rw [he]
          constructor
          · simpa using ihle
          · intro hlt
            simp only at hlt
            exact ihlt (by omega)
      | false =>
          have hfix := collisionSweep_false rsqrt rest l hr
          have he : solveLoop rsqrt rest (n + 1) l = ((collisionSweep rsqrt rest l).1, 1) := by
            simp [solveLoop, hr]
          rw [he]
          constructor
          · simp
          · intro _
            rw [hfix.1, hr]
            exact ⟨rfl, hfix.2⟩

/-- C5: the collision solver performs at most maxCollisionSolves = 4
grid-rebuild-and-sweep iterations; a sweep that resolves nothing stops the
loop right there (early exit exactly on a no-resolution sweep, which leaves
the state untouched); and whenever the loop exits before the cap, no
candidate pair of the final state reports an overlap. -/
theorem c5_solver_bounded (rsqrt : ℚ → ℚ) (rest : ℚ) (l : List Ball) :
    (solveLoop rsqrt rest maxCollisionSolves l).2 ≤ maxCollisionSolves ∧
    (∀ l2 : List Ball, (collisionSweep rsqrt rest l2).2 = false →
      solveLoop rsqrt rest maxCollisionSolves l2 = (l2, 1)) ∧
    ((solveLoop rsqrt rest maxCollisionSolves l).2 < maxCollisionSolves →
      ∀ p ∈ candidatePairs (solveLoop rsqrt rest maxCollisionSolves l).1,
        pairReports rsqrt rest (solveLoop rsqrt rest maxCollisionSolves l).1 p = false) := by
  refine ⟨(solveLoop_spec rsqrt rest maxCollisionSolves l).1, ?_, ?_⟩
  · intro l2 h
    have hfix := collisionSweep_false rsqrt rest l2 h
    show solveLoop rsqrt rest 4 l2 = (l2, 1)
    simp [solveLoop, h, hfix.1]
  · intro h
    exact ((solveLoop_spec rsqrt rest maxCollisionSolves l).2 h).2

/-- C5 witness: on the two overlapping solid probe balls the solver stops
after 2 of the 4 allowed sweeps, and the candidate pair (0, 1) of the final
state reports no overlap. -/
theorem c5_solver_bounded_witness :
    (solveLoop rsqrt225 0.85 maxCollisionSolves [solidProbeA, solidProbeB]).2 ≤
      maxCollisionSolves ∧
    pairReports rsqrt225 0.85
      (solveLoop rsqrt225 0.85 maxCollisionSolves [solidProbeA, solidProbeB]).1
      (0, 1) = false :=
  ⟨(c5_solver_bounded rsqrt225 0.85 [solidProbeA, solidProbeB]).1,
   (c5_solver_bounded rsqrt225 0.85 [solidProbeA, solidProbeB]).2.2
     (by with_unfolding_all decide) (0, 1) (by with_unfolding_all decide)⟩

/-- C10: the resolver reports an overlap exactly when the squared center
distance is below (radius1+radius2)^2 and the combined radius exceeds the
minimum-separation epsilon - regardless of materials and velocities, hence
also for a static-static pair, which it reports while leaving both balls
unchanged. -/
theorem c10_reports_iff (rsqrt : ℚ → ℚ) (b1 b2 : Ball) (r f : ℚ)
    (hr1 : 0 ≤ b1.radius) (hr2 : 0 ≤ b2.radius)
    (hs0 : 0 ≤ rsqrt (clampedDistSq b1 b2))
    (hs1 : rsqrt (clampedDistSq b1 b2) * rsqrt (clampedDistSq b1 b2) =
      clampedDistSq b1 b2) :
    ((resolveCollisionCustom rsqrt b1 b2 r f).2.2 = true ↔
      (distSqBetween b1 b2 < (b1.radius + b2.radius) ^ 2 ∧
       minimumSeparation < b1.radius + b2.radius)) ∧
    (b1.material = MaterialStatic → b2.material = MaterialStatic →
      (resolveCollisionCustom rsqrt b1 b2 r f).1 = b1 ∧
      (resolveCollisionCustom rsqrt b1 b2 r f).2.1 = b2) := by
  have hε : (0 : ℚ) < minimumSeparation := by norm_num [minimumSeparation]
  set D := rsqrt (clampedDistSq b1 b2) with hD
  have hDD : D * D = clampedDistSq b1 b2 := hs1
  have hDε : minimumSeparation * minimumSeparation ≤ D * D := by
    rw [hDD]
    simp only [clampedDistSq]
    split_ifs with h
    · exact le_refl _
    · exact not_lt.mp h
  have hDge : minimumSeparation ≤ D := by nlinarith
  constructor
  · rw [resolve_bool_eq]
    simp only [overlapReported, Bool.and_eq_true, decide_eq_true_eq]
    constructor
    · rintro ⟨hlt, hov⟩
      refine ⟨by rw [pow_two]; exact hlt, ?_⟩
      linarith
    · rintro ⟨hlt, hcR⟩
      refine ⟨by rw [pow_two] at hlt; exact hlt, ?_⟩
      rw [pow_two] at hlt
      rw [← hD]
      by_cases h : distSqBetween b1 b2 < minimumSeparation * minimumSeparation
      · have : clampedDistSq b1 b2 = minimumSeparation * minimumSeparation := by
          simp only [clampedDistSq]
          rw [if_pos h]
        rw [this] at hDD
        have hDeq : D = minimumSeparation := by nlinarith
        rw [hDeq]
        linarith
      · have : clampedDistSq b1 b2 = distSqBetween b1 b2 := by
          simp only [clampedDistSq]
          rw [if_neg h]
        rw [this] at hDD
        have hcR0 : (0 : ℚ) ≤ b1.radius + b2.radius := by linarith
        nlinarith
  · intro h1 h2
    exact resolve_static_id rsqrt b1 b2 r f h1 h2

/-- C10 witness: the characterization applied to the two overlapping static
probe balls. -/
theorem c10_reports_iff_witness :
    ((resolveCollisionCustom rsqrt25 staticProbe staticProbeB 0.85 0.5).2.2 = true ↔
      (distSqBetween staticProbe staticProbeB <
        (staticProbe.radius + staticProbeB.radius) ^ 2 ∧
       minimumSeparation < staticProbe.radius + staticProbeB.radius)) ∧
    (staticProbe.material = MaterialStatic → staticProbeB.material = MaterialStatic →
      (resolveCollisionCustom rsqrt25 staticProbe staticProbeB 0.85 0.5).1 = staticProbe ∧
      (resolveCollisionCustom rsqrt25 staticProbe staticProbeB 0.85 0.5).2.1 =
        staticProbeB) :=
  c10_reports_iff rsqrt25 staticProbe staticProbeB 0.85 0.5
    (by with_unfolding_all decide) (by with_unfolding_all decide)
    (by with_unfolding_all decide) (by with_unfolding_all decide)

/-- Helper: reading beside the updated index. -/
theorem getD_set_ne : ∀ (l : List Ball) (k i : Nat) (b : Ball), i ≠ k →
    (l.set k b).getD i default = l.getD i default := by
  intro l
  induction l with
  | nil => intro k i b _; rfl
  | cons a t ih =>
      intro k i b h
      cases k with
      | zero =>
          cases i with
          | zero => exact absurd rfl h
          | succ j => simp
      | succ m =>
          cases i with
          | zero => simp
          | succ j => simpa using ih m j b fun hh => h (by rw [hh])

/-- Helper: reading at the updated index. -/
theorem getD_set_eq : ∀ (l : List Ball) (k : Nat) (b : Ball), k < l.length →
    (l.set k b).getD k default = b := by
  intro l
  induction l with
  | nil => intro k b h; simp at h
  | cons a t ih =>
      intro k b h
      cases k with
      | zero => simp
      | succ m => simpa using ih m b (by simpa using h)

/-- Helper: the static-fixing invariant is reflexive. -/
theorem staticInv_refl (l : List Ball) : StaticInv l l :=
  ⟨rfl, fun _ => rfl, fun _ _ => rfl⟩

/-- Helper: the static-fixing invariant composes. -/
theorem staticInv_comp (l st st2 : List Ball) (h1 : StaticInv l st)
    (h2 : StaticInv st st2) : StaticInv l st2 := by
  obtain ⟨hl1, hm1, hf1⟩ := h1
  obtain ⟨hl2, hm2, hf2⟩ := h2
  refine ⟨hl2.trans hl1, fun i => (hm2 i).trans (hm1 i), fun i hi => ?_⟩
  have hsti : (st.getD i default).material = MaterialStatic := by
    rw [hm1 i]
    exact hi
  rw [hf2 i hsti, hf1 i hi]

/-- Helper: writing a material-preserving update at an index that is either
non-static in the reference list or left unchanged keeps the invariant. -/
theorem staticInv_set (l st : List Ball) (k : Nat) (b : Ball) (hI : StaticInv l st)
    (hmat : b.material = (st.getD k default).material)
    (hfix : (l.getD k default).material = MaterialStatic → b = st.getD k default) :
    StaticInv l (st.set k b) := by
  obtain ⟨hl, hm, hf⟩ := hI
  by_cases hk : k < st.length
  · refine ⟨by simpa using hl, fun i => ?_, fun i hi => ?_⟩
    · by_cases hik : i = k
      · subst hik
        rw [getD_set_eq st i b hk, hmat, hm i]
      · rw [getD_set_ne st k i b hik, hm i]
    · by_cases hik : i = k
      · subst hik
        rw [getD_set_eq st i b hk, hfix hi, hf i hi]
      · rw [getD_set_ne st k i b hik]
        exact hf i hi
  · rw [List.set_eq_of_length_le (not_lt.mp hk)]
    exact ⟨hl, hm, hf⟩

/-- Helper: writing a material-preserving update at a non-static index. -/
theorem staticInv_set_mobile (l st : List Ball) (k : Nat) (b : Ball) (hI : StaticInv l st)
    (hmat : b.material = (st.getD k default).material)
    (hk : (l.getD k default).material ≠ MaterialStatic) :
    StaticInv l (st.set k b) :=
  staticInv_set l st k b hI hmat fun h => absurd h hk

/-- Helper: writing a material-preserving update at an index the code has
just checked to be non-static in the current state. -/
theorem staticInv_set_guarded (l st : List Ball) (k : Nat) (b : Ball) (hI : StaticInv l st)
    (hmat : b.material = (st.getD k default).material)
    (hguard : (st.getD k default).material ≠ MaterialStatic) :
    StaticInv l (st.set k b) := by
  refine staticInv_set l st k b hI hmat fun h => absurd ?_ hguard
  rw [hI.2.1 k]
  exact h

/-- Helper: writing material-preserving updates at two distinct non-static
indices. -/
theorem staticInv_set_pair (l st : List Ball) (i j : Nat) (bi bj : Ball)
    (hI : StaticInv l st) (hij : i ≠ j)
    (hmi : bi.material = (st.getD i default).material)
    (hmj : bj.material = (st.getD j default).material)
    (hi : (l.getD i default).material ≠ MaterialStatic)
    (hj : (l.getD j default).material ≠ MaterialStatic) :
    StaticInv l ((st.set i bi).set j bj) := by
  refine staticInv_set_mobile l _ j bj (staticInv_set_mobile l st i bi hI hmi hi) ?_ hj
  rw [getD_set_ne st i j bi (Ne.symm hij)]
  exact hmj

/-- Helper: every index in a rebuilt bucket was inserted from the index
list. -/
theorem gridInsert_fold_mem (cs : ℚ) (l : List Ball) :
    ∀ (idxs : List Nat) (f0 : Int → List Nat) (k : Int) (j : Nat),
      j ∈ (idxs.foldl (gridInsert cs l) f0) k → j ∈ f0 k ∨ j ∈ idxs := by
  intro idxs
  induction idxs with
  | nil => intro f0 k j h; exact Or.inl h
  | cons a t ih =>
      intro f0 k j h
      rw [List.foldl_cons] at h
      rcases ih (gridInsert cs l f0 a) k j h with h1 | h1
      · simp only [gridInsert] at h1
        by_cases hk : k = hashKey (cellCoordAt cs (l.getD a default).pos).1
            (cellCoordAt cs (l.getD a default).pos).2
        · rw [if_pos hk] at h1
          rcases List.mem_append.mp h1 with h2 | h2
          · exact Or.inl h2
          · simp at h2
            exact Or.inr (by simp [h2])
        · rw [if_neg hk] at h1
          exact Or.inl h1
      · exact Or.inr (List.mem_cons_of_mem _ h1)

/-- Helper: bucket membership implies membership in the inserted index
list. -/
theorem gridBuild_mem (cs : ℚ) (l : List Ball) (idxs : List Nat) (k : Int) (j : Nat)
    (h : j ∈ gridBuild cs l idxs k) : j ∈ idxs := by
  rcases gridInsert_fold_mem cs l idxs (fun _ => []) k j h with h1 | h1
  · simp at h1
  · exact h1

/-- Helper: water indices point at water particles. -/
theorem mem_waterIndicesOf (l : List Ball) (j : Nat) (h : j ∈ waterIndicesOf l) :
    (l.getD j default).material = MaterialWater := by
  simp only [waterIndicesOf, List.mem_filter, List.mem_range] at h
  exact of_decide_eq_true h.2

/-- Helper: gas indices point at gas particles. -/
theorem mem_gasIndicesOf (l : List Ball) (j : Nat) (h : j ∈ gasIndicesOf l) :
    (l.getD j default).material = MaterialGas := by
  simp only [gasIndicesOf, List.mem_filter, List.mem_range] at h
  exact of_decide_eq_true h.2

/-- Helper: the resolver preserves both materials in every branch. -/
theorem resolve_material (rsqrt : ℚ → ℚ) (b1 b2 : Ball) (r f : ℚ) :
    (resolveCollisionCustom rsqrt b1 b2 r f).1.material = b1.material ∧
    (resolveCollisionCustom rsqrt b1 b2 r f).2.1.material = b2.material := by
  simp only [resolveCollisionCustom]
  split_ifs <;> exact ⟨rfl, rfl⟩

/-- Helper: a static first ball is returned unchanged by the resolver. -/
theorem resolve_static_b1 (rsqrt : ℚ → ℚ) (b1 b2 : Ball) (r f : ℚ)
    (h : b1.material = MaterialStatic) :
    (resolveCollisionCustom rsqrt b1 b2 r f).1 = b1 := by
  have m1 : mobilityFor b1.material = 0 := by simp [mobilityFor, h]
  have hz : ¬((0 : ℚ) > 0) := lt_irrefl 0
  simp only [resolveCollisionCustom, m1, if_neg hz]
  split_ifs <;> rfl

/-- Helper: a static second ball is returned unchanged by the resolver. -/
theorem resolve_static_b2 (rsqrt : ℚ → ℚ) (b1 b2 : Ball) (r f : ℚ)
    (h : b2.material = MaterialStatic) :
    (resolveCollisionCustom rsqrt b1 b2 r f).2.1 = b2 := by
  have m2 : mobilityFor b2.material = 0 := by simp [mobilityFor, h]
  have hz : ¬((0 : ℚ) > 0) := lt_irrefl 0
  simp only [resolveCollisionCustom, m2, if_neg hz]
  split_ifs <;> rfl

/-- Helper: materials survive the top reflection. -/
theorem reflectTop_material (s : Settings) (b : Ball) :
    (reflectTop s b).material = b.material := by
  simp only [reflectTop]
  split_ifs <;> rfl

/-- Helper: materials survive the bottom reflection. -/
theorem reflectBottom_material (s : Settings) (H : ℚ) (b : Ball) :
    (reflectBottom s H b).material = b.material := by
  simp only [reflectBottom]
  split_ifs <;> rfl

/-- Helper: materials survive the left reflection. -/
theorem reflectLeft_material (s : Settings) (b : Ball) :
    (reflectLeft s b).material = b.material := by
  simp only [reflectLeft]
  split_ifs <;> rfl

/-- Helper: materials survive the right reflection. -/
theorem reflectRight_material (s : Settings) (W : ℚ) (b : Ball) :
    (reflectRight s W b).material = b.material := by
  simp only [reflectRight]
  split_ifs <;> rfl

/-- Helper: materials survive the integrator step. -/
theorem integratorStep_material (rsqrt : ℚ → ℚ) (s : Settings) (W H : ℚ) (b : Ball) :
    (integratorStep rsqrt s W H b).material = b.material := by
  simp only [integratorStep]
  split_ifs with h
  · rfl
  · rw [reflectRight_material, reflectLeft_material, reflectBottom_material,
      reflectTop_material]

/-- Helper: the integrator step skips static particles entirely. -/
theorem integratorStep_static (rsqrt : ℚ → ℚ) (s : Settings) (W H : ℚ) (b : Ball)
    (h : b.material = MaterialStatic) : integratorStep rsqrt s W H b = b := by
  simp only [integratorStep, if_pos h]

/-- Helper: getD through a map. -/
theorem getD_map (f : Ball → Ball) : ∀ (l : List Ball) (i : Nat),
    (l.map f).getD i default = if i < l.length then f (l.getD i default) else default := by
  intro l
  induction l with
  | nil => intro i; simp
  | cons a t ih =>
      intro i
      cases i with
      | zero => simp
      | succ j => simpa using ih j

/-- Helper: the integrator pass preserves the static-fixing invariant. -/
theorem staticInv_integratorPass (rsqrt : ℚ → ℚ) (s : Settings) (W H : ℚ) (l : List Ball) :
    StaticInv l (integratorPass rsqrt s W H l) := by
  refine ⟨List.length_map _ _, fun i => ?_, fun i hi => ?_⟩
  · rw [integratorPass, getD_map]
    by_cases h : i < l.length
    · rw [if_pos h, integratorStep_material]
    · rw [if_neg h, List.getD_eq_default _ _ (not_lt.mp h)]
  · rw [integratorPass, getD_map]
    by_cases h : i < l.length
    · rw [if_pos h, integratorStep_static rsqrt s W H _ hi]
    · rw [if_neg h, List.getD_eq_default _ _ (not_lt.mp h)]

/-- Helper: one pairwise water interaction preserves the static-fixing
invariant when both ends are non-static in the reference list. -/
theorem staticInv_waterPairStep (rsqrt : ℚ → ℚ) (ws : List Nat) (dens : List (ℚ × ℚ))
    (bi : Nat) (pressure nearPressure : ℚ) (l st : List Ball) (nj : Nat)
    (hI : StaticInv l st)
    (hbi : (l.getD bi default).material ≠ MaterialStatic)
    (hnj : (l.getD nj default).material ≠ MaterialStatic) :
    StaticInv l (waterPairStep rsqrt ws dens bi pressure nearPressure st nj) := by
  by_cases h1 : nj ≤ bi
  · simp only [waterPairStep, if_pos h1]
    exact hI
  · have hne : bi ≠ nj := fun h => h1 (le_of_eq h.symm)
    cases hfind : ws.findIdx? (fun j => j == nj) with
    | none =>
        simp only [waterPairStep, if_neg h1, hfind]
        exact hI
    | some nwi =>
        simp only [waterPairStep, if_neg h1, hfind]
        split_ifs with h2 h3 h4
        · exact hI
        · exact hI
        · exact staticInv_set_pair l _ bi nj _ _
            (staticInv_set_pair l st bi nj _ _ hI hne rfl rfl hbi hnj)
            hne rfl rfl hbi hnj
        · exact staticInv_set_pair l st bi nj _ _ hI hne rfl rfl hbi hnj

/-- Helper: one water-boundary interaction preserves the static-fixing
invariant: the water end is non-static, and the solid end is only pushed
under an explicit non-static guard. -/
theorem staticInv_waterBoundaryStep (rsqrt : ℚ → ℚ) (wi : Nat) (baseRange : ℚ)
    (l st : List Ball) (si : Nat) (hI : StaticInv l st)
    (hwi : (l.getD wi default).material ≠ MaterialStatic) :
    StaticInv l (waterBoundaryStep rsqrt wi baseRange st si) := by
  simp only [waterBoundaryStep]
  split_ifs with h1 h2 h3 h4 h5
  · exact hI
  · exact hI
  · exact staticInv_set_guarded l _ si _
      (staticInv_set_mobile l _ wi _
        (staticInv_set_guarded l _ si _
          (staticInv_set_mobile l st wi _ hI rfl hwi) rfl h3) rfl hwi) rfl h4
  · exact staticInv_set_mobile l _ wi _
      (staticInv_set_guarded l _ si _
        (staticInv_set_mobile l st wi _ hI rfl hwi) rfl h3) rfl hwi
  · exact staticInv_set_guarded l _ si _
      (staticInv_set_mobile l _ wi _
        (staticInv_set_mobile l st wi _ hI rfl hwi) rfl hwi) rfl h5
  · exact staticInv_set_mobile l _ wi _
      (staticInv_set_mobile l st wi _ hI rfl hwi) rfl hwi

/-- Helper: one pairwise gas interaction preserves the static-fixing
invariant when both ends are non-static in the reference list. -/
theorem staticInv_gasPairStep (rsqrt : ℚ → ℚ) (gi : Nat) (l st : List Ball) (nj : Nat)
    (hI : StaticInv l st)
    (hgi : (l.getD gi default).material ≠ MaterialStatic)
    (hnj : (l.getD nj default).material ≠ MaterialStatic) :
    StaticInv l (gasPairStep rsqrt gi st nj) := by
  by_cases h1 : nj ≤ gi
  · simp only [gasPairStep, if_pos h1]
    exact hI
  · have hne : gi ≠ nj := fun h => h1 (le_of_eq h.symm)
    simp only [gasPairStep, if_neg h1]
    split_ifs with h2 h3
    · exact hI
    · exact hI
    · exact staticInv_set_pair l _ gi nj _ _
        (staticInv_set_pair l st gi nj _ _ hI hne rfl rfl hgi hnj)
        hne rfl rfl hgi hnj

/-- Helper: one gas-boundary interaction preserves the static-fixing
invariant. -/
theorem staticInv_gasBoundaryStep (rsqrt : ℚ → ℚ) (gi : Nat) (baseRange : ℚ)
    (l st : List Ball) (si : Nat) (hI : StaticInv l st)
    (hgi : (l.getD gi default).material ≠ MaterialStatic) :
    StaticInv l (gasBoundaryStep rsqrt gi baseRange st si) := by
  simp only [gasBoundaryStep]
  split_ifs with h1 h2 h3 h4 h5
  · exact hI
  · exact hI
  · exact staticInv_set_guarded l _ si _
      (staticInv_set_mobile l _ gi _
        (staticInv_set_guarded l _ si _
          (staticInv_set_mobile l st gi _ hI rfl hgi) rfl h3) rfl hgi) rfl h4
  · exact staticInv_set_mobile l _ gi _
      (staticInv_set_guarded l _ si _
        (staticInv_set_mobile l st gi _ hI rfl hgi) rfl h3) rfl hgi
  · exact staticInv_set_guarded l _ si _
      (staticInv_set_mobile l _ gi _
        (staticInv_set_mobile l st gi _ hI rfl hgi) rfl hgi) rfl h5
  · exact staticInv_set_mobile l _ gi _
      (staticInv_set_mobile l st gi _ hI rfl hgi) rfl hgi

/-- Helper: the pairwise water force pass preserves the static-fixing
invariant when the buckets only hold non-static indices. -/
theorem staticInv_waterForcePass (rsqrt : ℚ → ℚ) (ws : List Nat) (dens : List (ℚ × ℚ))
    (bk : Int → List Nat) (cells : List (Int × Int)) (l : List Ball)
    (hbk : ∀ (k : Int) (j : Nat), j ∈ bk k → (l.getD j default).material ≠ MaterialStatic)
    (hws : ∀ j ∈ ws, (l.getD j default).material ≠ MaterialStatic) :
    StaticInv l (waterForcePass rsqrt ws dens bk cells l) := by
  refine foldl_inv_mem (StaticInv l) _ ws.enum l (staticInv_refl l) fun s p hp hs => ?_
  refine foldl_inv_mem (StaticInv l) _ neighborOffsets s hs fun s2 o ho hs2 => ?_
  refine foldl_inv_mem (StaticInv l) _ _ s2 hs2 fun s3 nj hnj hs3 => ?_
  exact staticInv_waterPairStep rsqrt ws dens p.2 _ _ l s3 nj hs3
    (hws p.2 (List.snd_mem_of_mem_enum hp)) (hbk _ nj hnj)

/-- Helper: applyWaterForces preserves the static-fixing invariant. -/
theorem staticInv_applyWaterForces (rsqrt : ℚ → ℚ) (l : List Ball) :
    StaticInv l (applyWaterForces rsqrt l) := by
  simp only [applyWaterForces]
  split_ifs with h1 h2
  · exact staticInv_refl l
  · exact staticInv_refl l
  · have hws : ∀ j ∈ waterIndicesOf l, (l.getD j default).material ≠ MaterialStatic := by
      intro j hj
      rw [mem_waterIndicesOf l j hj]
      exact fun hcon => MaterialType.noConfusion hcon
    have hbk : ∀ (k : Int) (j : Nat),
        j ∈ gridBuild waterCellSize l (waterIndicesOf l) k →
        (l.getD j default).material ≠ MaterialStatic := fun k j hjk =>
      hws j (gridBuild_mem waterCellSize l (waterIndicesOf l) k j hjk)
    refine foldl_inv_mem (StaticInv l) _ (waterIndicesOf l).enum _
      (staticInv_waterForcePass rsqrt (waterIndicesOf l) _ _ _ l hbk hws)
      fun s p hp hs => ?_
    refine foldl_inv_mem (StaticInv l) _ neighborOffsets s hs fun s2 o ho hs2 => ?_
    refine foldl_inv_mem (StaticInv l) _ _ s2 hs2 fun s3 si hsi hs3 => ?_
    exact staticInv_waterBoundaryStep rsqrt p.2 _ l s3 si hs3
      (hws p.2 (List.snd_mem_of_mem_enum hp))

/-- Helper: applyGasForces preserves the static-fixing invariant. -/
theorem staticInv_applyGasForces (rsqrt : ℚ → ℚ) (l : List Ball) :
    StaticInv l (applyGasForces rsqrt l) := by
  have hgs : ∀ j ∈ gasIndicesOf l, (l.getD j default).material ≠ MaterialStatic := by
    intro j hj
    rw [mem_gasIndicesOf l j hj]
    exact fun hcon => MaterialType.noConfusion hcon
  have hbk : ∀ (k : Int) (j : Nat),
      j ∈ gridBuild gasCellSize l (gasIndicesOf l) k →
      (l.getD j default).material ≠ MaterialStatic := fun k j hjk =>
    hgs j (gridBuild_mem gasCellSize l (gasIndicesOf l) k j hjk)
  simp only [applyGasForces]
  split_ifs with h1 h2
  · exact staticInv_refl l
  · refine foldl_inv_mem (StaticInv l) _ _ _ ?_ fun s p hp hs => ?_
    · refine foldl_inv_mem (StaticInv l) _ _ l (staticInv_refl l) fun s gi hgi hs => ?_
      exact staticInv_set_mobile l s gi _ hs rfl (hgs gi hgi)
    · refine foldl_inv_mem (StaticInv l) _ neighborOffsets s hs fun s2 o ho hs2 => ?_
      refine foldl_inv_mem (StaticInv l) _ _ s2 hs2 fun s3 nj hnj hs3 => ?_
      exact staticInv_gasPairStep rsqrt p.2 l s3 nj hs3
        (hgs p.2 (List.snd_mem_of_mem_enum hp)) (hbk _ nj hnj)
  · refine foldl_inv_mem (StaticInv l) _ _ _ ?_ fun s p hp hs => ?_
    · refine foldl_inv_mem (StaticInv l) _ _ _ ?_ fun s p hp hs => ?_
      · refine foldl_inv_mem (StaticInv l) _ _ l (staticInv_refl l) fun s gi hgi hs => ?_
        exact staticInv_set_mobile l s gi _ hs rfl (hgs gi hgi)
      · refine foldl_inv_mem (StaticInv l) _ neighborOffsets s hs fun s2 o ho hs2 => ?_
        refine foldl_inv_mem (StaticInv l) _ _ s2 hs2 fun s3 nj hnj hs3 => ?_
        exact staticInv_gasPairStep rsqrt p.2 l s3 nj hs3
          (hgs p.2 (List.snd_mem_of_mem_enum hp)) (hbk _ nj hnj)
    · refine foldl_inv_mem (StaticInv l) _ neighborOffsets s hs fun s2 o ho hs2 => ?_
      refine foldl_inv_mem (StaticInv l) _ _ s2 hs2 fun s3 si hsi hs3 => ?_
      exact staticInv_gasBoundaryStep rsqrt p.2 _ l s3 si hs3
        (hgs p.2 (List.snd_mem_of_mem_enum hp))

/-- Helper: candidate pairs are strictly ordered. -/
theorem candidatePairs_lt (l : List Ball) (p : Nat × Nat) (h : p ∈ candidatePairs l) :
    p.1 < p.2 := by
  simp only [candidatePairs, List.mem_flatMap, List.mem_map, List.mem_filter] at h
  obtain ⟨i, hi, o, ho, j, hj, hpe⟩ := h
  rw [← hpe]
  exact of_decide_eq_true hj.2

/-- Helper: one sweep step preserves the static-fixing invariant for an
ordered pair. -/
theorem staticInv_sweepStep (rsqrt : ℚ → ℚ) (rest : ℚ) (l : List Ball)
    (acc : List Ball × Bool) (p : Nat × Nat) (hp : p.1 ≠ p.2)
    (hI : StaticInv l acc.1) : StaticInv l (sweepStep rsqrt rest acc p).1 := by
  cases hc : collideParams rest (acc.1.getD p.1 default).material
      (acc.1.getD p.2 default).material with
  | none =>
      rw [sweepStep_none rsqrt rest acc p hc]
      exact hI
  | some rf =>
      rw [sweepStep_some rsqrt rest acc p rf hc]
      refine staticInv_set l _ p.2 _ ?_ ?_ ?_
      · refine staticInv_set l acc.1 p.1 _ hI
          (resolve_material rsqrt (acc.1.getD p.1 default) (acc.1.getD p.2 default)
            rf.1 rf.2).1 fun hstat => ?_
        refine resolve_static_b1 rsqrt _ _ rf.1 rf.2 ?_
        rw [hI.2.1 p.1]
        exact hstat
      · rw [getD_set_ne acc.1 p.1 p.2 _ (Ne.symm hp)]
        exact (resolve_material rsqrt (acc.1.getD p.1 default) (acc.1.getD p.2 default)
          rf.1 rf.2).2
      · intro hstat
        rw [getD_set_ne acc.1 p.1 p.2 _ (Ne.symm hp)]
        refine resolve_static_b2 rsqrt _ _ rf.1 rf.2 ?_
        rw [hI.2.1 p.2]
        exact hstat

/-- Helper: one collision sweep preserves the static-fixing invariant. -/
theorem staticInv_collisionSweep (rsqrt : ℚ → ℚ) (rest : ℚ) (l : List Ball) :
    StaticInv l (collisionSweep rsqrt rest l).1 := by
  refine foldl_inv_mem (fun acc : List Ball × Bool => StaticInv l acc.1) _
    (candidatePairs l) (l, false) (staticInv_refl l) fun s p hp hs => ?_
  exact staticInv_sweepStep rsqrt rest l s p (Nat.ne_of_lt (candidatePairs_lt l p hp)) hs

/-- Helper: the solver loop preserves the static-fixing invariant. -/
theorem staticInv_solveLoop (rsqrt : ℚ → ℚ) (rest : ℚ) :
    ∀ (fuel : Nat) (l : List Ball), StaticInv l (solveLoop rsqrt rest fuel l).1 := by
  intro fuel
  induction fuel with
  | zero => intro l; exact staticInv_refl l
  | succ n ih =>
      intro l
      cases hr : (collisionSweep rsqrt rest l).2 with
      | true =>
          have he : (solveLoop rsqrt rest (n + 1) l).1 =
              (solveLoop rsqrt rest n (collisionSweep rsqrt rest l).1).1 := by
            simp [solveLoop, hr]
          rw [he]
          exact staticInv_comp l _ _ (staticInv_collisionSweep rsqrt rest l)
            (ih (collisionSweep rsqrt rest l).1)
      | false =>
          have he : (solveLoop rsqrt rest (n + 1) l).1 =
              (collisionSweep rsqrt rest l).1 := by
            simp [solveLoop, hr]
          rw [he]
          exact staticInv_collisionSweep rsqrt rest l

/-- Helper: the collision pass preserves the static-fixing invariant. -/
theorem staticInv_collisionPass (rsqrt : ℚ → ℚ) (rest : ℚ) (l : List Ball) :
    StaticInv l (collisionPass rsqrt rest l) := by
  simp only [collisionPass]
  split_ifs with h
  · exact staticInv_solveLoop rsqrt rest maxCollisionSolves l
  · exact staticInv_refl l

/-- Helper: one whole physics frame preserves the static-fixing invariant. -/
theorem staticInv_physicsFrame (rsqrt : ℚ → ℚ) (s : Settings) (W H : ℚ) (l : List Ball) :
    StaticInv l (physicsFrame rsqrt s W H l) := by
  refine staticInv_comp l _ _ (staticInv_applyWaterForces rsqrt l) ?_
  refine staticInv_comp _ _ _ (staticInv_applyGasForces rsqrt _) ?_
  refine staticInv_comp _ _ _ (staticInv_integratorPass rsqrt s W H _) ?_
  exact staticInv_collisionPass rsqrt s.collisionRestitution _

/-- Helper: any number of physics frames preserves the static-fixing
invariant. -/
theorem staticInv_iterate (rsqrt : ℚ → ℚ) (s : Settings) (W H : ℚ) :
    ∀ (n : Nat) (l : List Ball), StaticInv l ((physicsFrame rsqrt s W H)^[n] l) := by
  intro n
  induction n with
  | zero => intro l; exact staticInv_refl l
  | succ m ih =>
      intro l
      rw [Function.iterate_succ_apply]
      exact staticInv_comp l _ _ (staticInv_physicsFrame rsqrt s W H l)
        (ih (physicsFrame rsqrt s W H l))

/-- C2: a particle whose material is static is left with its position and
velocity (indeed its whole record) unchanged by the Integrator pass, the
CollisionResolver's positional correction and impulse/friction application,
and both the water and gas force models including their boundary push/drag
terms, over any number of frames. -/
theorem c2_static_fixed (rsqrt : ℚ → ℚ) (s : Settings) (W H : ℚ) (l : List Ball)
    (n i : Nat) (h : (l.getD i default).material = MaterialStatic) :
    ((physicsFrame rsqrt s W H)^[n] l).getD i default = l.getD i default :=
  (staticInv_iterate rsqrt s W H n l).2.2 i h

/-- C2 witness: a static particle next to a falling solid particle is
byte-for-byte unchanged after two full frames. -/
theorem c2_static_fixed_witness :
    ((physicsFrame rsqrtZero defaultSettings 1000 1000)^[2]
        [staticProbe, solidProbeFar]).getD 0 default =
      [staticProbe, solidProbeFar].getD 0 default :=
  c2_static_fixed rsqrtZero defaultSettings 1000 1000 [staticProbe, solidProbeFar] 2 0
    (by with_unfolding_all decide)

/-- Helper: the pass-1 body is the canonical componentwise accumulation of
the per-neighbor contribution. -/
theorem waterDensityStep_eq (rsqrt : ℚ → ℚ) (l : List Ball) (i : Nat)
    (acc : ℚ × ℚ) (nj : Nat) :
    waterDensityStep rsqrt l i acc nj =
      (acc.1 + (waterDensityContrib rsqrt l i nj).1,
       acc.2 + (waterDensityContrib rsqrt l i nj).2) := by
  simp only [waterDensityStep, waterDensityContrib, waterKernelAcc]
  split_ifs <;> simp

/-- Helper: folding a canonical componentwise accumulation computes the two
sums. -/
theorem foldl_pair_add2 {α : Type _} (f1 f2 : α → ℚ) :
    ∀ (L : List α) (acc : ℚ × ℚ),
      L.foldl (fun acc x => (acc.1 + f1 x, acc.2 + f2 x)) acc =
      (acc.1 + (L.map f1).sum, acc.2 + (L.map f2).sum) := by
  intro L
  induction L with
  | nil => intro acc; simp
  | cons x t ih =>
      intro acc
      rw [List.foldl_cons, ih]
      simp only [List.map_cons, List.sum_cons, Prod.mk.injEq]
      constructor <;> ring

/-- Helper: a rebuilt bucket holds exactly the inserted indices whose cell
key matches, in insertion order. -/
theorem gridInsert_fold_filter (cs : ℚ) (l : List Ball) :
    ∀ (idxs : List Nat) (f0 : Int → List Nat) (k : Int),
      (idxs.foldl (gridInsert cs l) f0) k =
        f0 k ++ idxs.filter fun j =>
          decide (k = hashKey (cellCoordAt cs (l.getD j default).pos).1
            (cellCoordAt cs (l.getD j default).pos).2) := by
  intro idxs
  induction idxs with
  | nil => intro f0 k; simp
  | cons a t ih =>
      intro f0 k
      rw [List.foldl_cons, ih]
      simp only [gridInsert, List.filter_cons]
      by_cases hk : k = hashKey (cellCoordAt cs (l.getD a default).pos).1
          (cellCoordAt cs (l.getD a default).pos).2
      · rw [if_pos hk, if_pos (decide_eq_true hk)]
        simp
      · rw [if_neg hk, if_neg (by simpa using hk)]

/-- Helper: the water bucket of a key is the filtered index range. -/
theorem waterBucket_eq (l : List Ball) (k : Int) :
    gridBuild waterCellSize l (waterIndicesOf l) k =
      (List.range l.length).filter fun j =>
        decide ((l.getD j default).material = MaterialWater) &&
        decide (k = hashKey (cellCoordAt waterCellSize (l.getD j default).pos).1
          (cellCoordAt waterCellSize (l.getD j default).pos).2) := by
  rw [gridBuild, gridInsert_fold_filter]
  simp only [waterIndicesOf, List.filter_filter, List.nil_append]
  exact List.filter_congr fun j _ => Bool.and_comm _ _

/-- Helper: a filtered-range sum as a Finset sum. -/
theorem sum_filter_range (n : Nat) (p : Nat → Bool) (g : Nat → ℚ) :
    (((List.range n).filter p).map g).sum =
      Finset.sum ((Finset.range n).filter fun j => p j = true) g := by
  induction n with
  | zero => simp
  | succ m ih =>
      rw [List.range_succ, List.filter_append, List.map_append, List.sum_append,
        Finset.range_succ, Finset.filter_insert]
      by_cases hp : p m = true
      · rw [if_pos hp, Finset.sum_insert (by simp)]
        simp only [List.filter_cons, hp, if_pos, List.filter_nil, List.map_cons,
          List.map_nil, List.sum_cons, List.sum_nil, ih]
        ring
      · rw [if_neg hp]
        simp only [List.filter_cons, List.filter_nil]
        rw [if_neg (by simpa using hp)]
        simp [ih]

/-- Helper: reindexing a filtered-range sum along an involution of the
range. -/
theorem sum_filter_range_reindex (n : Nat) (σ : Nat → Nat)
    (hinv : ∀ j, σ (σ j) = j) (hlt : ∀ j, j < n → σ j < n)
    (p : Nat → Bool) (g : Nat → ℚ) :
    (((List.range n).filter fun j => p (σ j)).map fun j => g (σ j)).sum =
    (((List.range n).filter p).map g).sum := by
  rw [sum_filter_range, sum_filter_range]
  refine Finset.sum_equiv ⟨σ, σ, hinv, hinv⟩ ?_ ?_
  · intro i
    simp only [Finset.mem_filter, Finset.mem_range, Equiv.coe_fn_mk]
    constructor
    · rintro ⟨h1, h2⟩
      exact ⟨hlt i h1, h2⟩
    · rintro ⟨h1, h2⟩
      refine ⟨?_, h2⟩
      have h3 := hlt (σ i) h1
      rw [hinv i] at h3
      exact h3
  · intro i _
    rfl

/-- Helper: the index swap is an involution. -/
theorem swapIdx_invol (a b j : Nat) : swapIdx a b (swapIdx a b j) = j := by
  simp only [swapIdx]
  split_ifs <;> omega

/-- Helper: the index swap stays inside the range. -/
theorem swapIdx_lt (a b n : Nat) (ha : a < n) (hb : b < n) (j : Nat) (hj : j < n) :
    swapIdx a b j < n := by
  simp only [swapIdx]
  split_ifs <;> omega

/-- Helper: the swap sends b to a. -/
theorem swapIdx_b (a b : Nat) : swapIdx a b b = a := by
  simp only [swapIdx]
  split_ifs <;> omega

/-- Helper: the swap sends a to b. -/
theorem swapIdx_a (a b : Nat) : swapIdx a b a = b := by
  simp only [swapIdx]
  split_ifs <;> omega

/-- Helper: reading a swapped list is reading along the index swap. -/
theorem swapAt_getD (l : List Ball) (a b : Nat) (ha : a < l.length) (hb : b < l.length)
    (j : Nat) : (swapAt l a b).getD j default = l.getD (swapIdx a b j) default := by
  by_cases hja : j = a
  · subst hja
    rw [swapIdx_a]
    simp only [swapAt]
    by_cases hab : j = b
    · subst hab
      rw [getD_set_eq _ _ _ (by simpa using hb)]
    · rw [getD_set_ne _ _ _ _ hab, getD_set_eq _ _ _ ha]
  · by_cases hjb : j = b
    · subst hjb
      rw [swapIdx_b]
      simp only [swapAt]
      rw [getD_set_eq _ _ _ (by simpa using hb)]
    · have hs : swapIdx a b j = j := by
        simp only [swapIdx]
        rw [if_neg hja, if_neg hjb]
      rw [hs]
      simp only [swapAt]
      rw [getD_set_ne _ _ _ _ hjb, getD_set_ne _ _ _ _ hja]

/-- Helper: swapping is symmetric in the two positions. -/
theorem swapAt_comm (l : List Ball) (a b : Nat) : swapAt l a b = swapAt l b a := by
  by_cases hab : a = b
  · subst hab
    rfl
  · simp only [swapAt]
    rw [List.set_comm _ _ _ hab]

/-- Helper: the per-neighbor contributions seen from the swapped particle
are the original contributions along the index swap. -/
theorem waterDensityContrib_swap (rsqrt : ℚ → ℚ) (l : List Ball) (a b : Nat)
    (ha : a < l.length) (hb : b < l.length) (j : Nat) :
    waterDensityContrib rsqrt (swapAt l a b) b j =
      waterDensityContrib rsqrt l a (swapIdx a b j) := by
  have hback : swapIdx a b j = a → j = b := by
    intro hc
    have h2 := congrArg (swapIdx a b) hc
    rw [swapIdx_invol, swapIdx_a] at h2
    exact h2
  simp only [waterDensityContrib]
  by_cases hj : j = b
  · subst hj
    rw [if_pos rfl, if_pos (swapIdx_b a j)]
  · rw [if_neg hj, if_neg fun hc => hj (hback hc)]
    rw [swapAt_getD l a b ha hb j, swapAt_getD l a b ha hb b, swapIdx_b]

/-- Helper: the density pass of the swapped list, read at the swapped
position, equals the original density pass. -/
theorem waterPass1At_swap (rsqrt : ℚ → ℚ) (l : List Ball) (a b : Nat)
    (ha : a < l.length) (hb : b < l.length) :
    waterPass1At rsqrt (swapAt l a b) b = waterPass1At rsqrt l a := by
  have hlen : (swapAt l a b).length = l.length := by simp [swapAt]
  have hget : ∀ j, (swapAt l a b).getD j default = l.getD (swapIdx a b j) default :=
    swapAt_getD l a b ha hb
  have hba : (swapAt l a b).getD b default = l.getD a default := by
    rw [hget b, swapIdx_b]
  have hstep : ∀ (l0 : List Ball) (i : Nat), waterDensityStep rsqrt l0 i =
      fun acc nj => (acc.1 + (waterDensityContrib rsqrt l0 i nj).1,
                     acc.2 + (waterDensityContrib rsqrt l0 i nj).2) := by
    intro l0 i
    funext acc nj
    exact waterDensityStep_eq rsqrt l0 i acc nj
  have hcell : cellCoordAt waterCellSize ((swapAt l a b).getD b default).pos =
      cellCoordAt waterCellSize (l.getD a default).pos := by rw [hba]
  have hoff : ∀ k : Int,
      ((gridBuild waterCellSize (swapAt l a b) (waterIndicesOf (swapAt l a b)) k).map
          fun nj => (waterDensityContrib rsqrt (swapAt l a b) b nj).1).sum =
      ((gridBuild waterCellSize l (waterIndicesOf l) k).map
          fun nj => (waterDensityContrib rsqrt l a nj).1).sum ∧
      ((gridBuild waterCellSize (swapAt l a b) (waterIndicesOf (swapAt l a b)) k).map
          fun nj => (waterDensityContrib rsqrt (swapAt l a b) b nj).2).sum =
      ((gridBuild waterCellSize l (waterIndicesOf l) k).map
          fun nj => (waterDensityContrib rsqrt l a nj).2).sum := by
    intro k
    rw [waterBucket_eq, waterBucket_eq, hlen]
    have hpred : (fun j => decide (((swapAt l a b).getD j default).material =
          MaterialWater) &&
        decide (k = hashKey
          (cellCoordAt waterCellSize ((swapAt l a b).getD j default).pos).1
          (cellCoordAt waterCellSize ((swapAt l a b).getD j default).pos).2)) =
        fun j => (fun m => decide ((l.getD m default).material = MaterialWater) &&
        decide (k = hashKey
          (cellCoordAt waterCellSize (l.getD m default).pos).1
          (cellCoordAt waterCellSize (l.getD m default).pos).2)) (swapIdx a b j) := by
      funext j
      rw [hget j]
    have hg1 : (fun nj => (waterDensityContrib rsqrt (swapAt l a b) b nj).1) =
        fun nj => (fun m => (waterDensityContrib rsqrt l a m).1) (swapIdx a b nj) := by
      funext nj
      rw [waterDensityContrib_swap rsqrt l a b ha hb nj]
    have hg2 : (fun nj => (waterDensityContrib rsqrt (swapAt l a b) b nj).2) =
        fun nj => (fun m => (waterDensityContrib rsqrt l a m).2) (swapIdx a b nj) := by
      funext nj
      rw [waterDensityContrib_swap rsqrt l a b ha hb nj]
    rw [hpred, hg1, hg2]
    constructor
    · exact sum_filter_range_reindex l.length (swapIdx a b) (swapIdx_invol a b)
        (fun j hj => swapIdx_lt a b l.length ha hb j hj)
        (fun m => decide ((l.getD m default).material = MaterialWater) &&
          decide (k = hashKey (cellCoordAt waterCellSize (l.getD m default).pos).1
            (cellCoordAt waterCellSize (l.getD m default).pos).2))
        (fun m => (waterDensityContrib rsqrt l a m).1)
    · exact sum_filter_range_reindex l.length (swapIdx a b) (swapIdx_invol a b)
        (fun j hj => swapIdx_lt a b l.length ha hb j hj)
        (fun m => decide ((l.getD m default).material = MaterialWater) &&
          decide (k = hashKey (cellCoordAt waterCellSize (l.getD m default).pos).1
            (cellCoordAt waterCellSize (l.getD m default).pos).2))
        (fun m => (waterDensityContrib rsqrt l a m).2)
  simp only [waterPass1At, hstep, foldl_pair_add2, hcell]
  have hmap1 : (fun o : Int × Int =>
      ((gridBuild waterCellSize (swapAt l a b) (waterIndicesOf (swapAt l a b))
          (hashKey ((cellCoordAt waterCellSize (l.getD a default).pos).1 + o.1)
            ((cellCoordAt waterCellSize (l.getD a default).pos).2 + o.2))).map
        fun nj => (waterDensityContrib rsqrt (swapAt l a b) b nj).1).sum) =
      fun o : Int × Int =>
      ((gridBuild waterCellSize l (waterIndicesOf l)
          (hashKey ((cellCoordAt waterCellSize (l.getD a default).pos).1 + o.1)
            ((cellCoordAt waterCellSize (l.getD a default).pos).2 + o.2))).map
        fun nj => (waterDensityContrib rsqrt l a nj).1).sum := by
    funext o
    exact (hoff _).1
  have hmap2 : (fun o : Int × Int =>
      ((gridBuild waterCellSize (swapAt l a b) (waterIndicesOf (swapAt l a b))
          (hashKey ((cellCoordAt waterCellSize (l.getD a default).pos).1 + o.1)
            ((cellCoordAt waterCellSize (l.getD a default).pos).2 + o.2))).map
        fun nj => (waterDensityContrib rsqrt (swapAt l a b) b nj).2).sum) =
      fun o : Int × Int =>
      ((gridBuild waterCellSize l (waterIndicesOf l)
          (hashKey ((cellCoordAt waterCellSize (l.getD a default).pos).1 + o.1)
            ((cellCoordAt waterCellSize (l.getD a default).pos).2 + o.2))).map
        fun nj => (waterDensityContrib rsqrt l a nj).2).sum := by
    funext o
    exact (hoff _).2
  rw [hmap1, hmap2]

/-- C8: swapping two water particles in the input array changes neither
one's pass-1 density / near-density (the pairwise kernel sum is
order-independent). -/
theorem c8_density_swap (rsqrt : ℚ → ℚ) (l : List Ball) (a b : Nat)
    (ha : a < l.length) (hb : b < l.length)
    (hwa : (l.getD a default).material = MaterialWater)
    (hwb : (l.getD b default).material = MaterialWater) :
    waterPass1At rsqrt (swapAt l a b) b = waterPass1At rsqrt l a ∧
    waterPass1At rsqrt (swapAt l a b) a = waterPass1At rsqrt l b := by
  constructor
  · exact waterPass1At_swap rsqrt l a b ha hb
  · rw [swapAt_comm l a b]
    exact waterPass1At_swap rsqrt l b a hb ha

/-- C8 witness: the invariance applied to two concrete neighboring water
particles. -/
theorem c8_density_swap_witness :
    waterPass1At rsqrt36 (swapAt [waterProbeA, waterProbeB] 0 1) 1 =
      waterPass1At rsqrt36 [waterProbeA, waterProbeB] 0 ∧
    waterPass1At rsqrt36 (swapAt [waterProbeA, waterProbeB] 0 1) 0 =
      waterPass1At rsqrt36 [waterProbeA, waterProbeB] 1 :=
  c8_density_swap rsqrt36 [waterProbeA, waterProbeB] 0 1 (by decide) (by decide)
    (by with_unfolding_all decide) (by with_unfolding_all decide)

end Phixgo
